import Mathlib

/-!
Verification of the MonoProject Django backend (monobank app).

This file gives a shallow embedding, in Lean 4, of the parts of the
repository that the checked claims are about:

* the jar aggregation logic (`MonoJar.get_available_months`,
  `MonoJar.get_month_summary`) and the `month-summary` REST action,
  from `django_api/api/monobank/models.py` and `views.py`;
* the transaction webhook endpoint (`TransactionWebhookApiView.post`),
  from `views.py`;
* the access-control mixin (`MonoBankAccessMixin.get_accessible_user_tg_ids`)
  and the viewset `get_queryset` methods, from `views.py`;
* the ingestion/upsert operations (`MonoAccount.create_cards_jars`,
  `MonoCard.create_card_from_webhook`, `MonoJar.create_jar_from_webhook`,
  `MonoTransaction.create_transaction_from_webhook`,
  `JarTransaction.create_jar_transaction_from_webhook`,
  `Currency.create_unknown_currency`), from `models.py`.

Database tables are embedded as Lean lists of records, Django querysets as
list filtering and sorting, and machine integers as `Int` (SQLite/Postgres
integer columns do not overflow in the modelled ranges).  Python `datetime`
arithmetic over Unix timestamps is embedded with the proleptic Gregorian
calendar normalised to UTC (the code calls `datetime.fromtimestamp` /
`datetime.timestamp`, which use the server timezone; the embedding fixes
that timezone to UTC).
-/

/- ### List sorting infrastructure

Django `order_by` and Python `sorted` are embedded as an insertion sort
parameterised by a boolean "comes no later than" predicate.  The sort is
structurally recursive so that concrete instances evaluate by `decide`. -/

def insertLe {α : Type} (le : α → α → Bool) (a : α) : List α → List α
  | [] => [a]
  | b :: bs => if le a b then a :: b :: bs else b :: insertLe le a bs

def sortByLe {α : Type} (le : α → α → Bool) : List α → List α
  | [] => []
  | a :: as => insertLe le a (sortByLe le as)

theorem perm_insertLe {α : Type} (le : α → α → Bool) (a : α) :
    ∀ l : List α, (insertLe le a l).Perm (a :: l) := by
  intro l
  induction l with
  | nil => simp [insertLe]
  | cons b bs ih =>
    by_cases h : le a b
    · simp [insertLe, h]
    · simp only [insertLe, h, if_neg]
      exact (ih.cons b).trans (List.Perm.swap a b bs)

theorem perm_sortByLe {α : Type} (le : α → α → Bool) :
    ∀ l : List α, (sortByLe le l).Perm l := by
  intro l
  induction l with
  | nil => simp [sortByLe]
  | cons a as ih =>
    exact (perm_insertLe le a (sortByLe le as)).trans (ih.cons a)

theorem mem_insertLe {α : Type} {le : α → α → Bool} {a x : α} {l : List α} :
    x ∈ insertLe le a l ↔ x = a ∨ x ∈ l := by
  rw [(perm_insertLe le a l).mem_iff]
  simp

theorem pairwise_insertLe {α : Type} {le : α → α → Bool}
    (htot : ∀ a b, le a b = true ∨ le b a = true)
    (htrans : ∀ a b c, le a b = true → le b c = true → le a c = true)
    {a : α} {l : List α}
    (hl : l.Pairwise (fun x y => le x y = true)) :
    (insertLe le a l).Pairwise (fun x y => le x y = true) := by
  induction l with
  | nil => simp [insertLe]
  | cons b bs ih =>
    rw [List.pairwise_cons] at hl
    obtain ⟨hb, hbs⟩ := hl
    by_cases h : le a b = true
    · simp only [insertLe, h, if_pos]
      refine List.Pairwise.cons ?_ (List.pairwise_cons.mpr ⟨hb, hbs⟩)
      intro x hx
      rcases List.mem_cons.mp hx with hx | hx
      · rw [hx]; exact h
      · exact htrans a b x h (hb x hx)
    · simp only [insertLe, h, if_neg]
      refine List.Pairwise.cons ?_ (ih hbs)
      intro x hx
      rcases mem_insertLe.mp hx with hx | hx
      · rw [hx]
        cases htot a b with
        | inl hab => exact absurd hab h
        | inr hba => exact hba
      · exact hb x hx

theorem pairwise_sortByLe {α : Type} {le : α → α → Bool}
    (htot : ∀ a b, le a b = true ∨ le b a = true)
    (htrans : ∀ a b c, le a b = true → le b c = true → le a c = true) :
    ∀ l : List α, (sortByLe le l).Pairwise (fun x y => le x y = true) := by
  intro l
  induction l with
  | nil => simp [sortByLe]
  | cons a as ih => exact pairwise_insertLe htot htrans ih

theorem mem_sortByLe {α : Type} {le : α → α → Bool} {x : α} {l : List α} :
    x ∈ sortByLe le l ↔ x ∈ l :=
  (perm_sortByLe le l).mem_iff

/- ### String ordering

Django orders `CharField` primary keys lexicographically by code point;
`String.lt` in core Lean does not reduce in the kernel, so the comparison is
re-stated on the underlying character lists. -/

def charListLtB : List Char → List Char → Bool
  | [], [] => false
  | [], _ :: _ => true
  | _ :: _, [] => false
  | a :: as, b :: bs =>
    if a.toNat < b.toNat then true else if b.toNat < a.toNat then false else charListLtB as bs

def strLtB (a b : String) : Bool := charListLtB a.data b.data

def strLeB (a b : String) : Bool := !(strLtB b a)

theorem charListLtB_asymm :
    ∀ l₁ l₂ : List Char, charListLtB l₁ l₂ = true → charListLtB l₂ l₁ = false := by
  intro l₁
  induction l₁ with
  | nil =>
    intro l₂ h
    cases l₂ with
    | nil => exact absurd h (by simp [charListLtB])
    | cons b bs => rfl
  | cons a as ih =>
    intro l₂ h
    cases l₂ with
    | nil => simp [charListLtB] at h
    | cons b bs =>
      simp only [charListLtB] at h ⊢
      by_cases hab : a.toNat < b.toNat
      · have hba : ¬ b.toNat < a.toNat := by omega
        simp [hab, hba]
      · by_cases hba : b.toNat < a.toNat
        · simp [hab, hba] at h
        · simp only [hab, hba, if_neg, if_false] at h ⊢
          exact ih bs h

theorem charListLtB_conn :
    ∀ l₁ l₂ : List Char, charListLtB l₁ l₂ = false → charListLtB l₂ l₁ = false → l₁ = l₂ := by
  intro l₁
  induction l₁ with
  | nil =>
    intro l₂ h _
    cases l₂ with
    | nil => rfl
    | cons b bs => simp [charListLtB] at h
  | cons a as ih =>
    intro l₂ h h'
    cases l₂ with
    | nil => simp [charListLtB] at h'
    | cons b bs =>
      simp only [charListLtB] at h h'
      by_cases hab : a.toNat < b.toNat
      · simp [hab] at h
      · by_cases hba : b.toNat < a.toNat
        · simp [hab, hba] at h'
        · simp only [hab, hba, if_neg, if_false] at h h'
          have hv : a.toNat = b.toNat := by omega
          rw [Char.ext (UInt32.toNat.inj hv), ih bs h h']

theorem charListLtB_trans :
    ∀ l₁ l₂ l₃ : List Char, charListLtB l₁ l₂ = true → charListLtB l₂ l₃ = true →
      charListLtB l₁ l₃ = true := by
  intro l₁
  induction l₁ with
  | nil =>
    intro l₂ l₃ h h'
    cases l₂ with
    | nil => exact absurd h (by simp [charListLtB])
    | cons b bs =>
      cases l₃ with
      | nil => simp [charListLtB] at h'
      | cons c cs => rfl
  | cons a as ih =>
    intro l₂ l₃ h h'
    cases l₂ with
    | nil => simp [charListLtB] at h
    | cons b bs =>
      cases l₃ with
      | nil => simp [charListLtB] at h'
      | cons c cs =>
        simp only [charListLtB] at h h' ⊢
        by_cases hab : a.toNat < b.toNat
        · by_cases hbc : b.toNat < c.toNat
          · have hac : a.toNat < c.toNat := by omega
            simp [hac]
          · by_cases hcb : c.toNat < b.toNat
            · simp [hbc, hcb] at h'
            · have hac : a.toNat < c.toNat := by omega
              simp [hac]
        · by_cases hba : b.toNat < a.toNat
          · simp [hab, hba] at h
          · by_cases hbc : b.toNat < c.toNat
            · have hac : a.toNat < c.toNat := by omega
              simp [hac]
            · by_cases hcb : c.toNat < b.toNat
              · simp [hbc, hcb] at h'
              · have hacv : ¬ a.toNat < c.toNat := by omega
                have hcav : ¬ c.toNat < a.toNat := by omega
                simp only [hab, hba, hbc, hcb, hacv, hcav, if_neg, if_false] at h h' ⊢
                exact ih bs cs h h'

theorem strLeB_total (a b : String) : strLeB a b = true ∨ strLeB b a = true := by
  simp only [strLeB, strLtB, Bool.not_eq_true']
  by_cases h : charListLtB b.data a.data = true
  · right
    exact charListLtB_asymm _ _ h
  · left
    exact Bool.eq_false_iff.mpr h

theorem strLeB_trans {a b c : String} (h₁ : strLeB a b = true) (h₂ : strLeB b c = true) :
    strLeB a c = true := by
  simp only [strLeB, strLtB, Bool.not_eq_true'] at h₁ h₂ ⊢
  cases hca : charListLtB c.data a.data with
  | false => rfl
  | true =>
    exfalso
    cases hbc : charListLtB b.data c.data with
    | false =>
      have hbceq := charListLtB_conn _ _ hbc h₂
      rw [hbceq] at h₁
      rw [h₁] at hca
      exact Bool.noConfusion hca
    | true =>
      have hba := charListLtB_trans _ _ _ hbc hca
      rw [h₁] at hba
      exact Bool.noConfusion hba

theorem strLeB_antisymm {a b : String} (h₁ : strLeB a b = true) (h₂ : strLeB b a = true) :
    a = b := by
  simp only [strLeB, strLtB, Bool.not_eq_true'] at h₁ h₂
  exact String.ext (charListLtB_conn _ _ h₂ h₁)

/- ### Calendar arithmetic

Embedding of the CPython `date`/`datetime` conversions used by the code,
normalised to UTC.  `daysFromCivil`/`civilFromDays` are the standard
proleptic-Gregorian conversions between a civil date and the number of days
since 1970-01-01. -/

def daysFromCivil (y m d : Int) : Int :=
  let yAdj := if m ≤ 2 then y - 1 else y
  let era := Int.fdiv yAdj 400
  let yoe := yAdj - era * 400
  let mp := (m + 9) % 12
  let doy := (153 * mp + 2) / 5 + d - 1
  let doe := yoe * 365 + yoe / 4 - yoe / 100 + doy
  era * 146097 + doe - 719468

def civilFromDays (z0 : Int) : Int × Int × Int :=
  let z := z0 + 719468
  let era := Int.fdiv z 146097
  let doe := z - era * 146097
  let yoe := (doe - doe / 1460 + doe / 36524 - doe / 146096) / 365
  let y := yoe + era * 400
  let doy := doe - (365 * yoe + yoe / 4 - yoe / 100)
  let mp := (5 * doy + 2) / 153
  let d := doy - (153 * mp + 2) / 5 + 1
  let m := mp + (if mp < 10 then 3 else -9)
  (if m ≤ 2 then y + 1 else y, m, d)

/-- Embedding of a Python `datetime.date` value. -/
structure DDate where
  year : Int
  month : Int
  day : Int
deriving DecidableEq, Repr

/-- Embedding of `int(datetime.combine(d, datetime.min.time()).timestamp())`
for a `date` `d`, with the server timezone normalised to UTC. -/
def tsOfDate (d : DDate) : Int := 86400 * daysFromCivil d.year d.month d.day

/-- Embedding of `(datetime.fromtimestamp(ts).year, datetime.fromtimestamp(ts).month)`,
with the server timezone normalised to UTC. -/
def ymOfTs (ts : Int) : Int × Int :=
  let c := civilFromDays (Int.fdiv ts 86400)
  (c.1, c.2.1)

/-- Number of days of a month of the proleptic Gregorian calendar, as validated
by the `datetime.date` constructor. -/
def daysInMonth (y m : Int) : Int :=
  if m = 2 then
    if y % 4 = 0 ∧ (y % 100 ≠ 0 ∨ y % 400 = 0) then 29 else 28
  else if m = 4 ∨ m = 6 ∨ m = 9 ∨ m = 11 then 30
  else 31

/- ### Jar transactions and the aggregation queries

Embedding of the `JarTransaction` rows used by `MonoJar.get_available_months`
and `MonoJar.get_month_summary` (`models.py`, `MonoJar`).  Only the columns
those queries read are carried: the primary key `id`, the Unix timestamp
`time`, and the integer `amount` and `balance` columns. -/

structure JarTx where
  id : String
  time : Int
  amount : Int
  balance : Int
deriving DecidableEq, Repr

/-- Row order produced by `order_by("time", "id")`. -/
def txLeB (a b : JarTx) : Bool :=
  decide (a.time < b.time) || (decide (a.time = b.time) && strLeB a.id b.id)

/-- Row order produced by `order_by("-amount")`. -/
def txAmountGeB (a b : JarTx) : Bool := decide (b.amount ≤ a.amount)

/-- Comparison used by Python `sorted` on `(year, month)` first-of-month dates,
stated on the `(year, month)` pairs. -/
def pairLeB (a b : Int × Int) : Bool :=
  decide (a.1 < b.1) || (decide (a.1 = b.1) && decide (a.2 ≤ b.2))

/-- Embedding of `MonoJar.get_available_months` (`models.py`): collect the
distinct `(year, month)` pairs of the jar's transaction timestamps and return
the sorted list of first-of-month dates. -/
def get_available_months (txs : List JarTx) : List DDate :=
  let pairs := (txs.map fun t => ymOfTs t.time).dedup
  (sortByLe pairLeB pairs).map fun p => { year := p.1, month := p.2, day := 1 }

/-- Result dict of `MonoJar.get_month_summary`. -/
structure MonthSummary where
  start_balance : Int
  budget : Int
  end_balance : Int
  spent : Int
deriving DecidableEq, Repr

/-- Embedding of `date(month_date.year, month_date.month, 1)` in
`get_month_summary`. -/
def month_start_date (d : DDate) : DDate := { year := d.year, month := d.month, day := 1 }

/-- Embedding of the `next_month_start` computation in `get_month_summary`. -/
def next_month_start_date (d : DDate) : DDate :=
  if d.month = 12 then { year := d.year + 1, month := 1, day := 1 }
  else { year := d.year, month := d.month + 1, day := 1 }

/-- The queryset filter `time__gte=start_ts, time__lt=end_ts` of
`get_month_summary`, before ordering. -/
def monthWindowTxs (txs : List JarTx) (d : DDate) : List JarTx :=
  txs.filter fun t =>
    decide (tsOfDate (month_start_date d) ≤ t.time) &&
    decide (t.time < tsOfDate (next_month_start_date d))

/-- Embedding of the `positive_budget` / `budget` computation of
`get_month_summary`: the head of the `amount__gt=0` rows of the month window
ordered by `("-amount",)`, via `values_list("amount").first()`, defaulting
to `0` when there is no positive row. -/
def month_budget (txs : List JarTx) (month : DDate) : Int :=
  let positive := sortByLe txAmountGeB
    ((monthWindowTxs txs month).filter fun t => decide (0 < t.amount))
  match positive.head? with
  | some t => t.amount
  | none => 0

/-- Embedding of `MonoJar.get_month_summary` (`models.py`) for a `date`
argument (the REST action always passes a parsed `date`).  The queryset
ordered by `("time", "id")` becomes a sort of the filtered rows; `first_tx` /
`last_tx` are its head and last element. -/
def get_month_summary (txs : List JarTx) (month : DDate) : MonthSummary :=
  let qs := sortByLe txLeB (monthWindowTxs txs month)
  match qs with
  | [] => { start_balance := 0, budget := 0, end_balance := 0, spent := 0 }
  | first_tx :: rest =>
    let last_tx := (first_tx :: rest).getLastD first_tx
    let budget := month_budget txs month
    { start_balance := first_tx.balance
      budget := budget
      end_balance := last_tx.balance
      spent := first_tx.balance - last_tx.balance - budget }

/- ### The month parameter parser of the `month-summary` REST action

`MonoJarViewSet.month_summary` (`views.py`) parses the `month` query
parameter with `datetime.strptime(month_str, "%Y-%m-%d")`.  CPython's
`_strptime` matches `%Y` as exactly four digits and `%m`/`%d` as one or two
digits whose value fits the field, then the `datetime` constructor validates
the day against the month length and rejects year 0. -/

def splitOnCharList (sep : Char) : List Char → List (List Char)
  | [] => [[]]
  | c :: cs =>
    match splitOnCharList sep cs with
    | [] => [[c]]
    | g :: gs => if c = sep then [] :: g :: gs else (c :: g) :: gs

def digitVal? (c : Char) : Option Nat :=
  if '0'.toNat ≤ c.toNat ∧ c.toNat ≤ '9'.toNat then some (c.toNat - '0'.toNat) else none

def natOfDigits? : List Char → Option Nat
  | [] => none
  | [c] => digitVal? c
  | c :: cs =>
    match digitVal? c, natOfDigits? cs with
    | some d, some n => some (d * 10 ^ cs.length + n)
    | _, _ => none

/-- Embedding of `datetime.strptime(s, "%Y-%m-%d").date()`: `some` is a
successfully parsed date, `none` is a raised `ValueError`. -/
def parse_month_param (s : String) : Option DDate :=
  match splitOnCharList '-' s.data with
  | [ys, ms, ds] =>
    match natOfDigits? ys, natOfDigits? ms, natOfDigits? ds with
    | some y, some m, some d =>
      if ys.length = 4 ∧ 1 ≤ y ∧
          ms.length ≤ 2 ∧ 1 ≤ m ∧ m ≤ 12 ∧
          ds.length ≤ 2 ∧ 1 ≤ d ∧ (d : Int) ≤ daysInMonth (y : Int) (m : Int) then
        some { year := (y : Int), month := (m : Int), day := (d : Int) }
      else none
    | _, _, _ => none
  | _ => none

/-- Embedding of the `MonoJarViewSet.month_summary` action (`views.py`) for a
resolved jar with transaction rows `txs`: returns the HTTP status and, on
success, the summary body (error bodies are elided as `none`). -/
def month_summary_view (monthParam : Option String) (txs : List JarTx) :
    Nat × Option MonthSummary :=
  match monthParam with
  | none => (400, none)
  | some s =>
    if s = "" then (400, none)
    else
      match parse_month_param s with
      | none => (400, none)
      | some parsed =>
        if parsed.day ≠ 1 then (400, none)
        else (200, some (get_month_summary txs parsed))

/- ### Order properties of the queryset comparators -/

theorem txLeB_total (a b : JarTx) : txLeB a b = true ∨ txLeB b a = true := by
  simp only [txLeB, Bool.or_eq_true, Bool.and_eq_true, decide_eq_true_eq]
  rcases lt_trichotomy a.time b.time with h | h | h
  · left; left; exact h
  · cases strLeB_total a.id b.id with
    | inl hs => left; right; exact ⟨h, hs⟩
    | inr hs => right; right; exact ⟨h.symm, hs⟩
  · right; left; exact h

theorem txLeB_trans {a b c : JarTx} (h₁ : txLeB a b = true) (h₂ : txLeB b c = true) :
    txLeB a c = true := by
  simp only [txLeB, Bool.or_eq_true, Bool.and_eq_true, decide_eq_true_eq] at h₁ h₂ ⊢
  rcases h₁ with h₁ | ⟨h₁t, h₁s⟩
  · rcases h₂ with h₂ | ⟨h₂t, _⟩
    · left; omega
    · left; omega
  · rcases h₂ with h₂ | ⟨h₂t, h₂s⟩
    · left; omega
    · right; exact ⟨by omega, strLeB_trans h₁s h₂s⟩

theorem txLeB_antisymm_key {a b : JarTx} (h₁ : txLeB a b = true) (h₂ : txLeB b a = true) :
    a.time = b.time ∧ a.id = b.id := by
  simp only [txLeB, Bool.or_eq_true, Bool.and_eq_true, decide_eq_true_eq] at h₁ h₂
  rcases h₁ with h₁ | ⟨h₁t, h₁s⟩
  · rcases h₂ with h₂ | ⟨h₂t, _⟩
    · omega
    · omega
  · rcases h₂ with h₂ | ⟨h₂t, h₂s⟩
    · omega
    · exact ⟨h₁t, strLeB_antisymm h₁s h₂s⟩

theorem txAmountGeB_total (a b : JarTx) : txAmountGeB a b = true ∨ txAmountGeB b a = true := by
  simp only [txAmountGeB, decide_eq_true_eq]
  omega

theorem txAmountGeB_trans {a b c : JarTx} (h₁ : txAmountGeB a b = true)
    (h₂ : txAmountGeB b c = true) : txAmountGeB a c = true := by
  simp only [txAmountGeB, decide_eq_true_eq] at h₁ h₂ ⊢
  omega

theorem pairLeB_total (a b : Int × Int) : pairLeB a b = true ∨ pairLeB b a = true := by
  simp only [pairLeB, Bool.or_eq_true, Bool.and_eq_true, decide_eq_true_eq]
  omega

theorem pairLeB_trans {a b c : Int × Int} (h₁ : pairLeB a b = true) (h₂ : pairLeB b c = true) :
    pairLeB a c = true := by
  simp only [pairLeB, Bool.or_eq_true, Bool.and_eq_true, decide_eq_true_eq] at h₁ h₂ ⊢
  omega

/- ### Generic lemmas about sorted lists -/

theorem getLastD_mem {α : Type} : ∀ (l : List α) (a : α), l ≠ [] → l.getLastD a ∈ l := by
  intro l
  induction l with
  | nil => intro a h; exact absurd rfl h
  | cons b bs ih =>
    intro a _
    rw [List.getLastD_cons]
    cases bs with
    | nil => simp [List.getLastD]
    | cons c cs =>
      exact List.mem_cons_of_mem b (ih b (by simp))

theorem pairwise_le_getLastD {α : Type} {le : α → α → Bool} :
    ∀ {l : List α} {a : α}, l.Pairwise (fun x y => le x y = true) →
      ∀ x ∈ l, x = l.getLastD a ∨ le x (l.getLastD a) = true := by
  intro l
  induction l with
  | nil => intro a _ x hx; exact absurd hx (by simp)
  | cons b bs ih =>
    intro a hl x hx
    rw [List.pairwise_cons] at hl
    obtain ⟨hb, hbs⟩ := hl
    rw [List.getLastD_cons]
    cases bs with
    | nil =>
      rcases List.mem_cons.mp hx with hx | hx
      · left; rw [hx]; rfl
      · exact absurd hx (by simp)
    | cons c cs =>
      rcases List.mem_cons.mp hx with hx | hx
      · right
        rw [hx]
        have hmem := getLastD_mem (c :: cs) b (by simp)
        exact hb _ hmem
      · exact ih hbs x hx

theorem pairwise_key_inj {α β : Type} {f : α → β} :
    ∀ {l : List α}, l.Pairwise (fun x y => f x ≠ f y) →
      ∀ a ∈ l, ∀ b ∈ l, f a = f b → a = b := by
  intro l
  induction l with
  | nil => intro _ a ha; exact absurd ha (by simp)
  | cons c cs ih =>
    intro hl a ha b hb hab
    rw [List.pairwise_cons] at hl
    obtain ⟨hc, hcs⟩ := hl
    rcases List.mem_cons.mp ha with ha | ha
    · rcases List.mem_cons.mp hb with hb | hb
      · rw [ha, hb]
      · rw [ha] at hab
        exact absurd hab (hc b hb)
    · rcases List.mem_cons.mp hb with hb | hb
      · rw [hb] at hab
        exact absurd hab.symm (hc a ha)
      · exact ih hcs a ha b hb hab

/- ### Supporting lemmas for the month summary -/

theorem get_month_summary_eq {txs : List JarTx} {month : DDate} {f : JarTx} {rest : List JarTx}
    (hqs : sortByLe txLeB (monthWindowTxs txs month) = f :: rest) :
    get_month_summary txs month =
      { start_balance := f.balance
        budget := month_budget txs month
        end_balance := ((f :: rest).getLastD f).balance
        spent := f.balance - ((f :: rest).getLastD f).balance - month_budget txs month } := by
  unfold get_month_summary
  rw [hqs]

theorem month_budget_of_nonpos {txs : List JarTx} {month : DDate}
    (h : ∀ u ∈ monthWindowTxs txs month, u.amount ≤ 0) : month_budget txs month = 0 := by
  have hnil : (monthWindowTxs txs month).filter (fun t => decide (0 < t.amount)) = [] := by
    rw [List.filter_eq_nil_iff]
    intro a ha
    simp only [decide_eq_true_eq]
    exact not_lt.mpr (h a ha)
  unfold month_budget
  rw [hnil]
  rfl

theorem month_budget_ge {txs : List JarTx} {month : DDate} {u : JarTx}
    (hu : u ∈ monthWindowTxs txs month) (hpos : 0 < u.amount) :
    u.amount ≤ month_budget txs month := by
  have huP : u ∈ (monthWindowTxs txs month).filter (fun t => decide (0 < t.amount)) :=
    List.mem_filter.mpr ⟨hu, by simpa using hpos⟩
  have huS : u ∈ sortByLe txAmountGeB
      ((monthWindowTxs txs month).filter (fun t => decide (0 < t.amount))) :=
    mem_sortByLe.mpr huP
  cases hps : sortByLe txAmountGeB
      ((monthWindowTxs txs month).filter (fun t => decide (0 < t.amount))) with
  | nil =>
    rw [hps] at huS
    exact absurd huS (by simp)
  | cons p ps =>
    have hb : month_budget txs month = p.amount := by
      unfold month_budget
      rw [hps]
      rfl
    rw [hb]
    have hsorted := pairwise_sortByLe txAmountGeB_total (fun a b c h h' => txAmountGeB_trans h h')
      ((monthWindowTxs txs month).filter (fun t => decide (0 < t.amount)))
    rw [hps, List.pairwise_cons] at hsorted
    obtain ⟨hp, _⟩ := hsorted
    rw [hps] at huS
    rcases List.mem_cons.mp huS with huS | huS
    · rw [huS]
    · have := hp u huS
      simpa [txAmountGeB] using this

theorem month_budget_attained {txs : List JarTx} {month : DDate}
    (h : ∃ u ∈ monthWindowTxs txs month, 0 < u.amount) :
    ∃ v ∈ monthWindowTxs txs month, 0 < v.amount ∧ v.amount = month_budget txs month := by
  obtain ⟨u, hu, hupos⟩ := h
  have huP : u ∈ (monthWindowTxs txs month).filter (fun t => decide (0 < t.amount)) :=
    List.mem_filter.mpr ⟨hu, by simpa using hupos⟩
  have huS : u ∈ sortByLe txAmountGeB
      ((monthWindowTxs txs month).filter (fun t => decide (0 < t.amount))) :=
    mem_sortByLe.mpr huP
  cases hps : sortByLe txAmountGeB
      ((monthWindowTxs txs month).filter (fun t => decide (0 < t.amount))) with
  | nil =>
    rw [hps] at huS
    exact absurd huS (by simp)
  | cons p ps =>
    have hb : month_budget txs month = p.amount := by
      unfold month_budget
      rw [hps]
      rfl
    have hpS : p ∈ sortByLe txAmountGeB
        ((monthWindowTxs txs month).filter (fun t => decide (0 < t.amount))) := by
      rw [hps]
      exact List.mem_cons_self p ps
    have hpP := mem_sortByLe.mp hpS
    have hpW := List.mem_filter.mp hpP
    refine ⟨p, hpW.1, ?_, hb.symm⟩
    simpa using hpW.2

/- ### C1: fields of a non-empty month summary -/

/-- C1.  For every jar and every month (given as its first-of-month date) that
contains at least one `JarTransaction`, `MonoJar.get_month_summary` returns
`start_balance` equal to the `balance` of the earliest transaction of the
month (ordered by `time`, then `id`), `end_balance` equal to the `balance` of
the latest such transaction, `budget` equal to the largest positive
transaction `amount` of the month (`0` when no transaction has positive
amount), and `spent = start_balance - end_balance - budget`.  The transaction
`tf` is the earliest and `tl` the latest row of the month window; the
pairwise hypothesis is the `id` primary-key uniqueness. -/
theorem monojar_month_summary_fields (txs : List JarTx) (month : DDate) (tf tl : JarTx)
    (hids : (monthWindowTxs txs month).Pairwise fun a b => a.id ≠ b.id)
    (htf : tf ∈ monthWindowTxs txs month)
    (htfmin : ∀ u ∈ monthWindowTxs txs month, txLeB tf u = true)
    (htl : tl ∈ monthWindowTxs txs month)
    (htlmax : ∀ u ∈ monthWindowTxs txs month, txLeB u tl = true) :
    (get_month_summary txs month).start_balance = tf.balance ∧
    (get_month_summary txs month).end_balance = tl.balance ∧
    ((∀ u ∈ monthWindowTxs txs month, u.amount ≤ 0) →
      (get_month_summary txs month).budget = 0) ∧
    (∀ u ∈ monthWindowTxs txs month, 0 < u.amount →
      u.amount ≤ (get_month_summary txs month).budget) ∧
    ((∃ u ∈ monthWindowTxs txs month, 0 < u.amount) →
      ∃ v ∈ monthWindowTxs txs month, 0 < v.amount ∧
        v.amount = (get_month_summary txs month).budget) ∧
    (get_month_summary txs month).spent =
      (get_month_summary txs month).start_balance -
        (get_month_summary txs month).end_balance - (get_month_summary txs month).budget := by
  cases hqs : sortByLe txLeB (monthWindowTxs txs month) with
  | nil =>
    exfalso
    have htfS : tf ∈ sortByLe txLeB (monthWindowTxs txs month) := mem_sortByLe.mpr htf
    rw [hqs] at htfS
    exact absurd htfS (by simp)
  | cons f rest =>
    have hsum := get_month_summary_eq hqs
    have hsorted := pairwise_sortByLe txLeB_total (fun a b c h h' => txLeB_trans h h')
      (monthWindowTxs txs month)
    rw [hqs, List.pairwise_cons] at hsorted
    obtain ⟨hf, hrest⟩ := hsorted
    have hfS : f ∈ sortByLe txLeB (monthWindowTxs txs month) := by
      rw [hqs]
      exact List.mem_cons_self f rest
    have hfW : f ∈ monthWindowTxs txs month := mem_sortByLe.mp hfS
    -- the head of the sorted queryset is the earliest transaction
    have hffirst : f = tf := by
      have h₁ : txLeB tf f = true := htfmin f hfW
      have h₂ : txLeB f tf = true := by
        have htfS : tf ∈ sortByLe txLeB (monthWindowTxs txs month) := mem_sortByLe.mpr htf
        rw [hqs] at htfS
        rcases List.mem_cons.mp htfS with h | h
        · rw [h]
          cases txLeB_total f f with
          | inl h => exact h
          | inr h => exact h
        · exact hf tf h
      have hkey := txLeB_antisymm_key h₂ h₁
      exact pairwise_key_inj hids f hfW tf htf hkey.2
    -- the last element of the sorted queryset is the latest transaction
    have hlS : (f :: rest).getLastD f ∈ sortByLe txLeB (monthWindowTxs txs month) := by
      rw [hqs]
      exact getLastD_mem (f :: rest) f (by simp)
    have hlW : (f :: rest).getLastD f ∈ monthWindowTxs txs month := mem_sortByLe.mp hlS
    have hlast : (f :: rest).getLastD f = tl := by
      have h₁ : txLeB ((f :: rest).getLastD f) tl = true := htlmax _ hlW
      have h₂ : txLeB tl ((f :: rest).getLastD f) = true := by
        have hsorted₂ := pairwise_sortByLe txLeB_total (fun a b c h h' => txLeB_trans h h')
          (monthWindowTxs txs month)
        rw [hqs] at hsorted₂
        have htlS : tl ∈ sortByLe txLeB (monthWindowTxs txs month) := mem_sortByLe.mpr htl
        rw [hqs] at htlS
        rcases pairwise_le_getLastD hsorted₂ tl htlS with h | h
        · rw [← h]
          cases txLeB_total tl tl with
          | inl h => exact h
          | inr h => exact h
        · exact h
      have hkey := txLeB_antisymm_key h₂ h₁
      exact pairwise_key_inj hids ((f :: rest).getLastD f) hlW tl htl hkey.2.symm
    refine ⟨?_, ?_, ?_, ?_, ?_, ?_⟩
    · rw [hsum, ← hffirst]
    · rw [hsum, hlast]
    · intro h
      rw [hsum]
      exact month_budget_of_nonpos h
    · intro u hu hpos
      rw [hsum]
      exact month_budget_ge hu hpos
    · intro h
      rw [hsum]
      exact month_budget_attained h
    · rw [hsum]

/-- Witness for C1 on a concrete jar history: two January-1970 transactions
plus one March-1970 transaction outside the summarised month. -/
theorem monojar_month_summary_fields_witness :
    (get_month_summary
        [ { id := "b", time := 200, amount := -30, balance := 970 },
          { id := "a", time := 100, amount := 50, balance := 1000 },
          { id := "c", time := 5356800, amount := 7, balance := 977 } ]
        { year := 1970, month := 1, day := 1 }).start_balance = 1000 ∧
    (get_month_summary
        [ { id := "b", time := 200, amount := -30, balance := 970 },
          { id := "a", time := 100, amount := 50, balance := 1000 },
          { id := "c", time := 5356800, amount := 7, balance := 977 } ]
        { year := 1970, month := 1, day := 1 }).end_balance = 970 := by
  have h := monojar_month_summary_fields
    [ { id := "b", time := 200, amount := -30, balance := 970 },
      { id := "a", time := 100, amount := 50, balance := 1000 },
      { id := "c", time := 5356800, amount := 7, balance := 977 } ]
    { year := 1970, month := 1, day := 1 }
    { id := "a", time := 100, amount := 50, balance := 1000 }
    { id := "b", time := 200, amount := -30, balance := 970 }
    (by decide) (by decide) (by decide) (by decide) (by decide)
  exact ⟨h.1, h.2.1⟩

/- ### C8: months without transactions -/

/-- C8.  For every jar and every valid first-of-month date whose month window
contains no `JarTransaction` of that jar, `MonoJar.get_month_summary` returns
the all-zero summary. -/
theorem monojar_month_summary_empty (txs : List JarTx) (month : DDate)
    (_hday : month.day = 1) (_hmonth : 1 ≤ month.month ∧ month.month ≤ 12)
    (hempty : monthWindowTxs txs month = []) :
    get_month_summary txs month =
      { start_balance := 0, budget := 0, end_balance := 0, spent := 0 } := by
  unfold get_month_summary
  rw [hempty]
  rfl

/-- Witness for C8: a jar with one March-1970 transaction has the all-zero
summary for January 1970. -/
theorem monojar_month_summary_empty_witness :
    get_month_summary [ { id := "c", time := 5356800, amount := 7, balance := 977 } ]
        { year := 1970, month := 1, day := 1 } =
      { start_balance := 0, budget := 0, end_balance := 0, spent := 0 } :=
  monojar_month_summary_empty
    [ { id := "c", time := 5356800, amount := 7, balance := 977 } ]
    { year := 1970, month := 1, day := 1 }
    (by decide) (by decide) (by decide)

/- ### C2: available months -/

/-- Strict chronological order on embedded dates. -/
def dateLtP (d e : DDate) : Prop :=
  d.year < e.year ∨
    (d.year = e.year ∧ (d.month < e.month ∨ (d.month = e.month ∧ d.day < e.day)))

/-- C2.  For every jar, `MonoJar.get_available_months` returns a strictly
ascending, duplicate-free list of first-of-month dates with exactly one entry
for each distinct `(year, month)` pair containing a transaction timestamp,
and the empty list for a jar without transactions. -/
theorem monojar_available_months_spec (txs : List JarTx) :
    (get_available_months txs).Pairwise dateLtP ∧
    (get_available_months txs).Nodup ∧
    (∀ d, d ∈ get_available_months txs ↔
      (d.day = 1 ∧ ∃ t ∈ txs, ymOfTs t.time = (d.year, d.month))) ∧
    (txs = [] → get_available_months txs = []) := by
  have hsorted := pairwise_sortByLe pairLeB_total (fun a b c h h' => pairLeB_trans h h')
    ((txs.map fun t => ymOfTs t.time).dedup)
  have hnodup : (sortByLe pairLeB ((txs.map fun t => ymOfTs t.time).dedup)).Nodup := by
    have h := List.nodup_dedup (txs.map fun t => ymOfTs t.time)
    exact ((perm_sortByLe pairLeB _).nodup_iff).mpr h
  have hstrict := hsorted.and hnodup
  have hpairlt : (get_available_months txs).Pairwise dateLtP := by
    unfold get_available_months
    refine List.Pairwise.map _ ?_ hstrict
    intro a b hab
    obtain ⟨hle, hne⟩ := hab
    simp only [pairLeB, Bool.or_eq_true, Bool.and_eq_true, decide_eq_true_eq] at hle
    have h1 : a.1 ≠ b.1 ∨ a.2 ≠ b.2 := by
      by_contra hc
      push_neg at hc
      exact hne (Prod.ext hc.1 hc.2)
    simp only [dateLtP]
    rcases hle with hle | hle <;> rcases h1 with h1 | h1 <;> omega
  refine ⟨hpairlt, ?_, ?_, ?_⟩
  · exact hpairlt.imp fun {a b} hab => by
      intro heq
      rw [heq] at hab
      simp only [dateLtP] at hab
      omega
  · intro d
    unfold get_available_months
    simp only [List.mem_map, mem_sortByLe, List.mem_dedup]
    constructor
    · rintro ⟨p, ⟨t, ht, hym⟩, hfp⟩
      refine ⟨by rw [← hfp], t, ht, ?_⟩
      rw [hym, ← hfp]
    · rintro ⟨hday, t, ht, hym⟩
      refine ⟨(d.year, d.month), ⟨t, ht, hym⟩, ?_⟩
      cases d with
      | mk y m dd =>
        simp only at hday
        rw [hday]
  · intro h
    rw [h]
    rfl

/-- Witness for C2 applied to a concrete history with two distinct months. -/
theorem monojar_available_months_spec_witness :
    { year := 1970, month := 3, day := 1 } ∈ get_available_months
      [ { id := "b", time := 200, amount := -30, balance := 970 },
        { id := "c", time := 5356800, amount := 7, balance := 977 } ] :=
  ((monojar_available_months_spec
      [ { id := "b", time := 200, amount := -30, balance := 970 },
        { id := "c", time := 5356800, amount := 7, balance := 977 } ]).2.2.1
    { year := 1970, month := 3, day := 1 }).mpr
    ⟨rfl, { id := "c", time := 5356800, amount := 7, balance := 977 }, by decide, by decide⟩

/- ### C10: the month-summary REST action -/

/-- C10.  The jar `month-summary` endpoint returns status 400 with no summary
body exactly when the `month` query parameter is missing, cannot be parsed as
`YYYY-MM-DD`, or parses to a date whose day is not 1; for every parameter
parsing to a first-of-month date it returns 200 with the
`get_month_summary` result. -/
theorem monojar_month_summary_view_spec (p : Option String) (txs : List JarTx) :
    (((month_summary_view p txs).1 = 400 ∧ (month_summary_view p txs).2 = none) ↔
      (p = none ∨ ∃ s, p = some s ∧ (parse_month_param s = none ∨
        ∃ d, parse_month_param s = some d ∧ d.day ≠ 1))) ∧
    (∀ s d, p = some s → parse_month_param s = some d → d.day = 1 →
      month_summary_view p txs = (200, some (get_month_summary txs d))) := by
  constructor
  · cases p with
    | none =>
      constructor
      · intro _
        exact Or.inl rfl
      · intro _
        exact ⟨rfl, rfl⟩
    | some s =>
      by_cases hs : s = ""
      · subst hs
        have hv : month_summary_view (some "") txs = (400, none) := rfl
        rw [hv]
        constructor
        · intro _
          exact Or.inr ⟨"", rfl, Or.inl rfl⟩
        · intro _
          exact ⟨rfl, rfl⟩
      · cases hparse : parse_month_param s with
        | none =>
          have hv : month_summary_view (some s) txs = (400, none) := by
            simp only [month_summary_view, if_neg hs, hparse]
          rw [hv]
          constructor
          · intro _
            exact Or.inr ⟨s, rfl, Or.inl hparse⟩
          · intro _
            exact ⟨rfl, rfl⟩
        | some d =>
          by_cases hd : d.day = 1
          · have hv : month_summary_view (some s) txs =
                (200, some (get_month_summary txs d)) := by
              simp only [month_summary_view, if_neg hs, hparse, hd, ne_eq,
                not_true_eq_false, if_neg, if_false]
            rw [hv]
            constructor
            · rintro ⟨h400, _⟩
              simp at h400
            · rintro (h | ⟨s₂, hs₂, h⟩)
              · exact Option.noConfusion h
              · obtain rfl := Option.some.inj hs₂
                rcases h with h | ⟨d₂, hd₂, hday₂⟩
                · rw [hparse] at h
                  exact Option.noConfusion h
                · rw [hparse] at hd₂
                  obtain rfl := Option.some.inj hd₂
                  exact absurd hd hday₂
          · have hv : month_summary_view (some s) txs = (400, none) := by
              simp only [month_summary_view, if_neg hs, hparse, hd, ne_eq,
                not_false_eq_true, if_pos, if_true]
            rw [hv]
            constructor
            · intro _
              exact Or.inr ⟨s, rfl, Or.inr ⟨d, hparse, hd⟩⟩
            · intro _
              exact ⟨rfl, rfl⟩
  · intro s d hp hparse hday
    subst hp
    have hs : s ≠ "" := by
      intro h
      rw [h] at hparse
      exact Option.noConfusion hparse
    simp only [month_summary_view, if_neg hs, hparse, hday, ne_eq, not_true_eq_false,
      if_neg, if_false]

/-- Witness for C10: the endpoint answers 200 with the computed summary for
`month=1970-01-01` on an empty history. -/
theorem monojar_month_summary_view_spec_witness :
    month_summary_view (some "1970-01-01") [] =
      (200, some (get_month_summary [] { year := 1970, month := 1, day := 1 })) :=
  (monojar_month_summary_view_spec (some "1970-01-01") []).2 "1970-01-01"
    { year := 1970, month := 1, day := 1 } rfl (by decide) rfl

/- ### The transaction webhook (`TransactionWebhookApiView`, `views.py`)

The webhook stores `MonoTransaction` rows for card accounts and
`JarTransaction` rows for jar accounts.  The rows carry exactly the columns
copied from the statement item by `_process_card_transaction` /
`_process_jar_transaction`; foreign keys are embedded by their natural keys
(`CategoryMSO.mso` for `mcc`, `Currency.code` for `currency`, the account's
string primary key for `account`). -/

structure MonoTxRow where
  id : String
  time : Int
  description : Option String
  mso : Int
  original_mcc : Option Int
  amount : Int
  operation_amount : Option Int
  currency : Option Int
  commission_rate : Option Int
  balance : Int
  hold : Bool
  receipt_id : Option String
  account : String
  cashback_amount : Int
  comment : Option String
deriving DecidableEq, Repr

structure JarTxRow where
  account : String
  id : String
  time : Int
  description : Option String
  mso : Int
  original_mcc : Option Int
  amount : Int
  operation_amount : Option Int
  currency : Option Int
  commission_rate : Option Int
  cashback_amount : Int
  balance : Int
  hold : Bool
  comment : Option String
deriving DecidableEq, Repr

/-- Modelled from the spec: the validated `statementItem` part of a
`TransactionData` webhook payload.  The pydantic model module is not part of
the sources; per the spec the webhook body carries a bank statement item
whose fields are copied verbatim into the stored transaction row, with `mcc`
and `currency` already resolved to the corresponding `CategoryMSO` /
`Currency` rows (represented by their `mso` number and currency code). -/
structure StatementItem where
  id : String
  time : Int
  description : Option String
  mso : Int
  original_mcc : Option Int
  amount : Int
  operation_amount : Option Int
  currency : Option Int
  commission_rate : Option Int
  balance : Int
  hold : Bool
  receipt_id : Option String
  cashback_amount : Int
  comment : Option String
deriving DecidableEq, Repr

/-- Modelled from the spec: a resolved account reference of a parsed
`TransactionData` payload.  `parse_obj` resolves the payload's account id to
either a stored `MonoCard` or a stored `MonoJar`; only the account's string
primary key and the `mono_token` of its owning `MonoAccount` are consumed by
the webhook view. -/
structure AccountRef where
  id : String
  mono_token : String
deriving DecidableEq, Repr

/-- Modelled from the spec: a successfully validated `TransactionData`
webhook payload; `account` is a card (`Sum.inl`) or a jar (`Sum.inr`). -/
structure TransactionData where
  account : Sum AccountRef AccountRef
  statement_item : StatementItem
deriving DecidableEq, Repr

/-- Exceptions raised by `TransactionData.parse_obj`. -/
inductive WebhookParseError where
  | validationError
  | dataNotFound
deriving DecidableEq, Repr

/-- Stored transaction tables read and written by the webhook. -/
structure WebhookState where
  monoTransactions : List MonoTxRow
  jarTransactions : List JarTxRow
deriving DecidableEq, Repr

/-- The `mono_token` of the `MonoAccount` owning the payload's account. -/
def TransactionData.accountToken (d : TransactionData) : String :=
  match d.account with
  | Sum.inl card => card.mono_token
  | Sum.inr jar => jar.mono_token

/-- Embedding of `TransactionWebhookApiView._process_card_transaction`. -/
def processCardTransaction (d : TransactionData) (accountId : String) : MonoTxRow :=
  { id := d.statement_item.id
    time := d.statement_item.time
    description := d.statement_item.description
    mso := d.statement_item.mso
    original_mcc := d.statement_item.original_mcc
    amount := d.statement_item.amount
    operation_amount := d.statement_item.operation_amount
    currency := d.statement_item.currency
    commission_rate := d.statement_item.commission_rate
    balance := d.statement_item.balance
    hold := d.statement_item.hold
    receipt_id := d.statement_item.receipt_id
    account := accountId
    cashback_amount := d.statement_item.cashback_amount
    comment := d.statement_item.comment }

/-- Embedding of `TransactionWebhookApiView._process_jar_transaction`; the
`comment` column is not assigned there and keeps its `null` default. -/
def processJarTransaction (d : TransactionData) (accountId : String) : JarTxRow :=
  { account := accountId
    id := d.statement_item.id
    time := d.statement_item.time
    description := d.statement_item.description
    mso := d.statement_item.mso
    original_mcc := d.statement_item.original_mcc
    amount := d.statement_item.amount
    operation_amount := d.statement_item.operation_amount
    currency := d.statement_item.currency
    commission_rate := d.statement_item.commission_rate
    cashback_amount := d.statement_item.cashback_amount
    balance := d.statement_item.balance
    hold := d.statement_item.hold
    comment := none }

/-- Embedding of `TransactionWebhookApiView.post` (`views.py`): the HTTP
status code and the resulting stored state.  `token` is the `token` query
parameter (`none` when absent); `body` is the result of
`TransactionData.parse_obj` on the request body. -/
def webhook_post (token : Option String)
    (body : Except WebhookParseError TransactionData)
    (st : WebhookState) : Nat × WebhookState :=
  let tokenTruthy := match token with
    | none => false
    | some t => t ≠ ""
  if !tokenTruthy then (403, st)
  else
    match body, token with
    | Except.error WebhookParseError.validationError, _ => (422, st)
    | Except.error WebhookParseError.dataNotFound, _ => (404, st)
    | Except.ok _, none => (403, st)
    | Except.ok d, some t =>
      if d.accountToken ≠ t then (403, st)
      else
        match d.account with
        | Sum.inl card =>
          if (st.monoTransactions.filter fun r => r.id == d.statement_item.id) ≠ [] then
            (200, st)
          else
            (201, { st with monoTransactions :=
              st.monoTransactions ++ [processCardTransaction d card.id] })
        | Sum.inr jar =>
          if (st.jarTransactions.filter fun r => r.id == d.statement_item.id) ≠ [] then
            (200, st)
          else
            (201, { st with jarTransactions :=
              st.jarTransactions ++ [processJarTransaction d jar.id] })

/-- The statement item id of the payload already occurs among the stored rows
of the matching transaction table. -/
def statementIdStored (d : TransactionData) (st : WebhookState) : Prop :=
  match d.account with
  | Sum.inl _ => ∃ r ∈ st.monoTransactions, r.id = d.statement_item.id
  | Sum.inr _ => ∃ r ∈ st.jarTransactions, r.id = d.statement_item.id

theorem filter_ne_nil_iff {α : Type} {p : α → Bool} {l : List α} :
    (l.filter p ≠ []) ↔ ∃ x ∈ l, p x = true := by
  rw [Ne, List.filter_eq_nil_iff]
  push_neg
  simp

theorem webhook_post_ok_eq (t : String) (d : TransactionData) (st : WebhookState)
    (ht : t ≠ "") (hmatch : d.accountToken = t) :
    webhook_post (some t) (Except.ok d) st =
      (match d.account with
       | Sum.inl card =>
         if (st.monoTransactions.filter fun r => r.id == d.statement_item.id) ≠ [] then
           (200, st)
         else
           (201, { st with monoTransactions :=
             st.monoTransactions ++ [processCardTransaction d card.id] })
       | Sum.inr jar =>
         if (st.jarTransactions.filter fun r => r.id == d.statement_item.id) ≠ [] then
           (200, st)
         else
           (201, { st with jarTransactions :=
             st.jarTransactions ++ [processJarTransaction d jar.id] })) := by
  unfold webhook_post
  simp only [ht, hmatch, ne_eq, not_true_eq_false, not_false_eq_true, decide_not,
    decide_eq_true_eq, if_true, if_false, Bool.not_false, Bool.not_true, decide_True,
    Bool.false_eq_true]

/- ### C3: webhook idempotence -/

/-- C3.  A valid webhook POST whose statement id is already stored returns
200 and changes nothing; a first valid POST for a new statement id returns
201 and appends exactly one transaction row to the matching table; and a
second POST of the same valid payload returns 200 and leaves the state of
the first POST unchanged, so posting twice equals posting once. -/
theorem transaction_webhook_idempotent (t : String) (d : TransactionData) (st : WebhookState)
    (ht : t ≠ "") (hmatch : d.accountToken = t) :
    (statementIdStored d st → webhook_post (some t) (Except.ok d) st = (200, st)) ∧
    (¬ statementIdStored d st →
      (webhook_post (some t) (Except.ok d) st).1 = 201 ∧
      (webhook_post (some t) (Except.ok d) st).2.monoTransactions =
        st.monoTransactions ++ (match d.account with
          | Sum.inl card => [processCardTransaction d card.id]
          | Sum.inr _ => []) ∧
      (webhook_post (some t) (Except.ok d) st).2.jarTransactions =
        st.jarTransactions ++ (match d.account with
          | Sum.inl _ => []
          | Sum.inr jar => [processJarTransaction d jar.id])) ∧
    webhook_post (some t) (Except.ok d) (webhook_post (some t) (Except.ok d) st).2 =
      (200, (webhook_post (some t) (Except.ok d) st).2) := by
  have heq := webhook_post_ok_eq t d st ht hmatch
  cases hacc : d.account with
  | inl card =>
    simp only [hacc] at heq ⊢
    by_cases hne : (st.monoTransactions.filter fun r => r.id == d.statement_item.id) ≠ []
    · rw [if_pos hne] at heq
      have hstored : statementIdStored d st := by
        simp only [statementIdStored, hacc]
        obtain ⟨x, hx, hxid⟩ := filter_ne_nil_iff.mp hne
        exact ⟨x, hx, by simpa using hxid⟩
      refine ⟨fun _ => heq, fun hn => absurd hstored hn, ?_⟩
      rw [heq]
      exact heq
    · rw [if_neg hne] at heq
      push_neg at hne
      have hnotstored : ¬ statementIdStored d st := by
        simp only [statementIdStored, hacc]
        rintro ⟨r, hr, hrid⟩
        have hmem : r ∈ st.monoTransactions.filter fun r => r.id == d.statement_item.id :=
          List.mem_filter.mpr ⟨hr, by simpa using hrid⟩
        rw [hne] at hmem
        exact absurd hmem (by simp)
      refine ⟨fun hstored => absurd hstored hnotstored, fun _ => ?_, ?_⟩
      · rw [heq]
        exact ⟨rfl, rfl, by simp⟩
      · rw [heq]
        have heq₂ := webhook_post_ok_eq t d
          { st with monoTransactions :=
            st.monoTransactions ++ [processCardTransaction d card.id] } ht hmatch
        simp only [hacc] at heq₂
        rw [if_pos ?_] at heq₂
        · exact heq₂
        · apply filter_ne_nil_iff.mpr
          refine ⟨processCardTransaction d card.id, ?_, ?_⟩
          · simp
          · simp [processCardTransaction]
  | inr jar =>
    simp only [hacc] at heq ⊢
    by_cases hne : (st.jarTransactions.filter fun r => r.id == d.statement_item.id) ≠ []
    · rw [if_pos hne] at heq
      have hstored : statementIdStored d st := by
        simp only [statementIdStored, hacc]
        obtain ⟨x, hx, hxid⟩ := filter_ne_nil_iff.mp hne
        exact ⟨x, hx, by simpa using hxid⟩
      refine ⟨fun _ => heq, fun hn => absurd hstored hn, ?_⟩
      rw [heq]
      exact heq
    · rw [if_neg hne] at heq
      push_neg at hne
      have hnotstored : ¬ statementIdStored d st := by
        simp only [statementIdStored, hacc]
        rintro ⟨r, hr, hrid⟩
        have hmem : r ∈ st.jarTransactions.filter fun r => r.id == d.statement_item.id :=
          List.mem_filter.mpr ⟨hr, by simpa using hrid⟩
        rw [hne] at hmem
        exact absurd hmem (by simp)
      refine ⟨fun hstored => absurd hstored hnotstored, fun _ => ?_, ?_⟩
      · rw [heq]
        exact ⟨rfl, by simp, rfl⟩
      · rw [heq]
        have heq₂ := webhook_post_ok_eq t d
          { st with jarTransactions :=
            st.jarTransactions ++ [processJarTransaction d jar.id] } ht hmatch
        simp only [hacc] at heq₂
        rw [if_pos ?_] at heq₂
        · exact heq₂
        · apply filter_ne_nil_iff.mpr
          refine ⟨processJarTransaction d jar.id, ?_, ?_⟩
          · simp
          · simp [processJarTransaction]

/-- Witness payload used by the webhook theorems. -/
def witnessStatementItem : StatementItem :=
  { id := "stmt1", time := 100, description := some "coffee", mso := 4121,
    original_mcc := some 4121, amount := -500, operation_amount := some (-500),
    currency := some 980, commission_rate := some 0, balance := 9500, hold := true,
    receipt_id := some "r1", cashback_amount := 0, comment := none }

/-- Witness for C3: posting a fresh card statement item twice stores it once. -/
theorem transaction_webhook_idempotent_witness :
    webhook_post (some "tok")
        (Except.ok { account := Sum.inl { id := "card1", mono_token := "tok" },
                     statement_item := witnessStatementItem })
        { monoTransactions := [], jarTransactions := [] } =
      (201, { monoTransactions :=
                [processCardTransaction
                  { account := Sum.inl { id := "card1", mono_token := "tok" },
                    statement_item := witnessStatementItem } "card1"],
              jarTransactions := [] }) ∧
    webhook_post (some "tok")
        (Except.ok { account := Sum.inl { id := "card1", mono_token := "tok" },
                     statement_item := witnessStatementItem })
        { monoTransactions :=
            [processCardTransaction
              { account := Sum.inl { id := "card1", mono_token := "tok" },
                statement_item := witnessStatementItem } "card1"],
          jarTransactions := [] } =
      (200, { monoTransactions :=
                [processCardTransaction
                  { account := Sum.inl { id := "card1", mono_token := "tok" },
                    statement_item := witnessStatementItem } "card1"],
              jarTransactions := [] }) := by
  have h := transaction_webhook_idempotent "tok"
    { account := Sum.inl { id := "card1", mono_token := "tok" },
      statement_item := witnessStatementItem }
    { monoTransactions := [], jarTransactions := [] }
    (by decide) (by decide)
  obtain ⟨h200, h201, htwice⟩ := h
  have hfresh := h201 (by
    intro hstored
    simp only [statementIdStored] at hstored
    obtain ⟨r, hr, _⟩ := hstored
    exact absurd hr (by simp))
  constructor
  · have h1 : (webhook_post (some "tok")
        (Except.ok { account := Sum.inl { id := "card1", mono_token := "tok" },
                     statement_item := witnessStatementItem })
        { monoTransactions := [], jarTransactions := [] }) =
      (201, { monoTransactions :=
                [processCardTransaction
                  { account := Sum.inl { id := "card1", mono_token := "tok" },
                    statement_item := witnessStatementItem } "card1"],
              jarTransactions := [] }) := by decide
    exact h1
  · decide

/- ### C9: webhook authentication failures -/

/-- C9.  A webhook POST with no token query parameter, or whose token does
not equal the `mono_token` of the `MonoAccount` owning the account referenced
by the payload, answers 403 and leaves the stored transactions unchanged. -/
theorem transaction_webhook_rejects_bad_token (token : Option String)
    (body : Except WebhookParseError TransactionData) (st : WebhookState)
    (h : token = none ∨
      ∃ t d, token = some t ∧ body = Except.ok d ∧ d.accountToken ≠ t) :
    webhook_post token body st = (403, st) := by
  rcases h with h | ⟨t, d, htok, hbody, hne⟩
  · subst h
    rfl
  · subst htok
    subst hbody
    by_cases ht : t = ""
    · subst ht
      rfl
    · unfold webhook_post
      simp [ht, hne]

/-- Witness for C9: a POST with a mismatched token for a stored jar account
is rejected and stores nothing. -/
theorem transaction_webhook_rejects_bad_token_witness :
    webhook_post (some "wrong")
        (Except.ok { account := Sum.inr { id := "jar1", mono_token := "tok" },
                     statement_item := witnessStatementItem })
        { monoTransactions := [], jarTransactions := [] } =
      (403, { monoTransactions := [], jarTransactions := [] }) :=
  transaction_webhook_rejects_bad_token (some "wrong")
    (Except.ok { account := Sum.inr { id := "jar1", mono_token := "tok" },
                 statement_item := witnessStatementItem })
    { monoTransactions := [], jarTransactions := [] }
    (Or.inr ⟨"wrong",
      { account := Sum.inr { id := "jar1", mono_token := "tok" },
        statement_item := witnessStatementItem }, rfl, rfl, by decide⟩)

/- ### Access control (`MonoBankAccessMixin`, `views.py`)

`get_accessible_user_tg_ids` combines the requesting user's related tg_ids
(`request.user.get_related_tg_ids(include_self=True, recursive=False)`) with
the optional `users` query parameter and the family expansion
(`User.expand_tg_ids_with_family`).  Both user-model methods live in the
`account` app, which is not part of the sources; they enter the embedding as
parameters: `related_tg_ids` is the requester's related set including self,
and `expand` is the family-link graph expansion.  Python sets become
`Finset String`; `None` (no filtering, superuser only) stays `Option`. -/

/-- Embedding of `users_param.split(",")`, built on the character list so
that concrete instances evaluate in the kernel. -/
def split_commas (s : String) : List String :=
  (splitOnCharList ',' s.data).map fun g => String.mk g

/-- Truthiness of an optional string query parameter (`if users_param:`). -/
def paramTruthy (p : Option String) : Bool :=
  match p with
  | none => false
  | some s => s ≠ ""

/-- Embedding of `str(x).lower() in ("1", "true", "yes")` for a string query
parameter. -/
def parse_bool_param (s : String) : Bool :=
  let l := String.mk (s.data.map Char.toLower)
  l = "1" ∨ l = "true" ∨ l = "yes"

/-- Embedding of `MonoBankAccessMixin.get_accessible_user_tg_ids`
(`views.py`).  `expand` is `User.expand_tg_ids_with_family` (modelled from
the spec: the `account` app is not under the sources); `related_tg_ids` is
the requester's `get_related_tg_ids(include_self=True, recursive=False)`.
`none` means no filtering (superusers without a `users` parameter). -/
def get_accessible_user_tg_ids (is_superuser is_list_action : Bool)
    (related_tg_ids : List String) (users_param : Option String)
    (with_family : Bool) (expand : Finset String → Finset String) :
    Option (Finset String) :=
  if is_superuser then
    match users_param with
    | some s =>
      if s ≠ "" ∧ is_list_action then
        let user_ids := (split_commas s).toFinset
        some (if with_family then expand user_ids else user_ids)
      else none
    | none => none
  else
    let accessible := related_tg_ids.toFinset
    match users_param with
    | some s =>
      if s ≠ "" then
        let requested := (split_commas s).toFinset
        let requested := if with_family then expand requested else requested
        some (requested ∩ accessible)
      else some accessible
    | none => some accessible

/-- A stored `MonoJar` as seen by `MonoJarViewSet.get_queryset`: its primary
key, the `monoaccount__user__tg_id` join, and the filtered flags. -/
structure MonoJarEntity where
  id : String
  owner_tg_id : String
  is_active : Bool
  is_budget : Bool
deriving DecidableEq, Repr

/-- A stored `MonoCard` as seen by `MonoCardViewSet.get_queryset`. -/
structure MonoCardEntity where
  id : String
  owner_tg_id : String
  is_active : Bool
deriving DecidableEq, Repr

/-- A stored transaction row as seen by the two transaction viewsets: its
primary key, the `account__monoaccount__user__tg_id` join, the account
foreign key and the `time` column. -/
structure TxEntity where
  id : String
  owner_tg_id : String
  account_id : String
  time : Int
deriving DecidableEq, Repr

/-- Embedding of `MonoJarViewSet.get_queryset` (`views.py`). -/
def monojar_get_queryset (jars : List MonoJarEntity) (is_superuser is_list_action : Bool)
    (related_tg_ids : List String) (users_param with_family_param is_budget_param : Option String)
    (expand : Finset String → Finset String) : List MonoJarEntity :=
  let with_family_bool := match with_family_param with
    | none => false
    | some v => parse_bool_param v
  let qs := sortByLe (fun a b => strLeB a.id b.id) (jars.filter fun j => j.is_active)
  let qs := match get_accessible_user_tg_ids is_superuser is_list_action related_tg_ids
      users_param with_family_bool expand with
    | none => qs
    | some ids => qs.filter fun j => j.owner_tg_id ∈ ids
  match is_budget_param with
  | none => qs
  | some b => qs.filter fun j => j.is_budget == parse_bool_param b

/-- Embedding of `MonoCardViewSet.get_queryset` (`views.py`). -/
def monocard_get_queryset (cards : List MonoCardEntity) (is_superuser is_list_action : Bool)
    (related_tg_ids : List String) (users_param : Option String)
    (expand : Finset String → Finset String) : List MonoCardEntity :=
  let qs := sortByLe (fun a b => strLeB a.id b.id) (cards.filter fun c => c.is_active)
  match get_accessible_user_tg_ids is_superuser is_list_action related_tg_ids
      users_param false expand with
  | none => qs
  | some ids => qs.filter fun c => c.owner_tg_id ∈ ids

/-- Embedding of `MonoTransactionViewSet.get_queryset` (`views.py`): ordering
by `("-time", "id")`, optional `cards` filter, then the access filter. -/
def monotransaction_get_queryset (txs : List TxEntity) (is_superuser is_list_action : Bool)
    (related_tg_ids : List String) (users_param card_ids_param : Option String)
    (expand : Finset String → Finset String) : List TxEntity :=
  let qs := sortByLe
    (fun a b => decide (b.time < a.time) || (decide (b.time = a.time) && strLeB a.id b.id)) txs
  let qs := match card_ids_param with
    | none => qs
    | some cs => qs.filter fun r => r.account_id ∈ split_commas cs
  match get_accessible_user_tg_ids is_superuser is_list_action related_tg_ids
      users_param false expand with
  | none => qs
  | some ids => qs.filter fun r => r.owner_tg_id ∈ ids

/-- Embedding of `MonoJarTransactionViewSet.get_queryset` (`views.py`):
ordering by `("-time", "id")`, optional `jars` filter, the `time_from`
filter (parsed with `strptime "%Y-%m-%d"`), then the access filter. -/
def monojartransaction_get_queryset (txs : List TxEntity) (is_superuser is_list_action : Bool)
    (related_tg_ids : List String) (users_param jar_ids_param time_from_param : Option String)
    (expand : Finset String → Finset String) : List TxEntity :=
  let qs := sortByLe
    (fun a b => decide (b.time < a.time) || (decide (b.time = a.time) && strLeB a.id b.id)) txs
  let qs := match jar_ids_param with
    | none => qs
    | some js => qs.filter fun r => r.account_id ∈ split_commas js
  let qs := match time_from_param with
    | none => qs
    | some tf =>
      match parse_month_param tf with
      | none => qs
      | some dt => qs.filter fun r => decide (tsOfDate dt ≤ r.time)
  match get_accessible_user_tg_ids is_superuser is_list_action related_tg_ids
      users_param false expand with
  | none => qs
  | some ids => qs.filter fun r => r.owner_tg_id ∈ ids

/-- The set a non-superuser request is filtered by, as computed by the
`For non-admin users` branch of `get_accessible_user_tg_ids`. -/
def nonsuper_accessible_set (related_tg_ids : List String) (users_param : Option String)
    (with_family : Bool) (expand : Finset String → Finset String) : Finset String :=
  match users_param with
  | some s =>
    if s ≠ "" then
      (if with_family then expand (split_commas s).toFinset
       else (split_commas s).toFinset) ∩ related_tg_ids.toFinset
    else related_tg_ids.toFinset
  | none => related_tg_ids.toFinset

theorem get_accessible_nonsuper (is_list_action : Bool) (related_tg_ids : List String)
    (users_param : Option String) (with_family : Bool)
    (expand : Finset String → Finset String) :
    get_accessible_user_tg_ids false is_list_action related_tg_ids users_param
        with_family expand =
      some (nonsuper_accessible_set related_tg_ids users_param with_family expand) := by
  unfold get_accessible_user_tg_ids nonsuper_accessible_set
  cases users_param with
  | none => simp
  | some s =>
    by_cases hs : s = "" <;> simp [hs]

theorem nonsuper_accessible_subset (related_tg_ids : List String)
    (users_param : Option String) (with_family : Bool)
    (expand : Finset String → Finset String) :
    nonsuper_accessible_set related_tg_ids users_param with_family expand ⊆
      related_tg_ids.toFinset := by
  unfold nonsuper_accessible_set
  cases users_param with
  | none => exact Finset.Subset.refl _
  | some s =>
    by_cases hs : s = ""
    · simp [hs]
    · simp only [hs, ne_eq, not_false_eq_true, if_pos, if_true]
      exact Finset.inter_subset_right

/- ### C4: access control of the list endpoints -/

/-- C4.  For every non-superuser request, `get_accessible_user_tg_ids`
returns a subset of the requester's own accessible set (their related family
tg_ids including self): without a `users` parameter it returns exactly that
set, with a `users` parameter it returns exactly the intersection of the
requested tg_ids (family-expanded when `with_family` is set) with that set;
consequently the card, jar, and transaction list endpoints only return
entities owned by tg_ids inside the requester's accessible set. -/
theorem monobank_access_control (is_list_action with_family : Bool)
    (related_tg_ids : List String)
    (users_param with_family_param is_budget_param card_ids_param jar_ids_param
      time_from_param : Option String)
    (expand : Finset String → Finset String)
    (jars : List MonoJarEntity) (cards : List MonoCardEntity) (mtxs jtxs : List TxEntity) :
    (∀ r, get_accessible_user_tg_ids false is_list_action related_tg_ids users_param
        with_family expand = some r → r ⊆ related_tg_ids.toFinset) ∧
    ((users_param = none ∨ users_param = some "") →
      get_accessible_user_tg_ids false is_list_action related_tg_ids users_param
          with_family expand = some related_tg_ids.toFinset) ∧
    (∀ s, users_param = some s → s ≠ "" →
      get_accessible_user_tg_ids false is_list_action related_tg_ids users_param
          with_family expand =
        some ((if with_family then expand (split_commas s).toFinset
               else (split_commas s).toFinset) ∩ related_tg_ids.toFinset)) ∧
    (∀ j ∈ monojar_get_queryset jars false is_list_action related_tg_ids users_param
        with_family_param is_budget_param expand,
      j.owner_tg_id ∈ related_tg_ids.toFinset) ∧
    (∀ c ∈ monocard_get_queryset cards false is_list_action related_tg_ids users_param expand,
      c.owner_tg_id ∈ related_tg_ids.toFinset) ∧
    (∀ r ∈ monotransaction_get_queryset mtxs false is_list_action related_tg_ids users_param
        card_ids_param expand,
      r.owner_tg_id ∈ related_tg_ids.toFinset) ∧
    (∀ r ∈ monojartransaction_get_queryset jtxs false is_list_action related_tg_ids users_param
        jar_ids_param time_from_param expand,
      r.owner_tg_id ∈ related_tg_ids.toFinset) := by
  refine ⟨?_, ?_, ?_, ?_, ?_, ?_, ?_⟩
  · intro r hr
    rw [get_accessible_nonsuper] at hr
    obtain rfl := Option.some.inj hr
    exact nonsuper_accessible_subset related_tg_ids users_param with_family expand
  · intro h
    rw [get_accessible_nonsuper]
    rcases h with h | h <;> rw [h] <;> simp [nonsuper_accessible_set]
  · intro s hup hs
    rw [get_accessible_nonsuper, hup]
    simp [nonsuper_accessible_set, hs]
  · intro j hj
    unfold monojar_get_queryset at hj
    simp only [get_accessible_nonsuper] at hj
    have hj₂ : j ∈ (sortByLe (fun a b => strLeB a.id b.id)
        (jars.filter fun j => j.is_active)).filter
          (fun j => j.owner_tg_id ∈
            nonsuper_accessible_set related_tg_ids users_param
              (match with_family_param with
               | none => false
               | some v => parse_bool_param v) expand) := by
      cases is_budget_param with
      | none => exact hj
      | some b => exact (List.mem_filter.mp hj).1
    have hmem := (List.mem_filter.mp hj₂).2
    simp only [decide_eq_true_eq] at hmem
    exact nonsuper_accessible_subset related_tg_ids users_param _ expand hmem
  · intro c hc
    unfold monocard_get_queryset at hc
    simp only [get_accessible_nonsuper] at hc
    have hmem := (List.mem_filter.mp hc).2
    simp only [decide_eq_true_eq] at hmem
    exact nonsuper_accessible_subset related_tg_ids users_param false expand hmem
  · intro r hr
    unfold monotransaction_get_queryset at hr
    simp only [get_accessible_nonsuper] at hr
    have hmem := (List.mem_filter.mp hr).2
    simp only [decide_eq_true_eq] at hmem
    exact nonsuper_accessible_subset related_tg_ids users_param false expand hmem
  · intro r hr
    unfold monojartransaction_get_queryset at hr
    simp only [get_accessible_nonsuper] at hr
    have hmem := (List.mem_filter.mp hr).2
    simp only [decide_eq_true_eq] at hmem
    exact nonsuper_accessible_subset related_tg_ids users_param false expand hmem

/-- Witness for C4 at a concrete request: a non-superuser with family
`{"u1", "u2"}` requesting `users=u2,u3` is filtered to the intersection. -/
theorem monobank_access_control_witness :
    get_accessible_user_tg_ids false true ["u1", "u2"] (some "u2,u3") false id =
      some (({"u2", "u3"} : Finset String) ∩ (["u1", "u2"] : List String).toFinset) := by
  have h := (monobank_access_control true false ["u1", "u2"] (some "u2,u3") none none none
    none none id [] [] [] []).2.2.1 "u2,u3" rfl (by decide)
  simpa [split_commas, splitOnCharList] using h

/- ### Ingestion (`models.py`)

The upsert operations of `models.py` are embedded over a database value
holding the tables they read and write.  Foreign keys are embedded by
natural keys: a card or jar references its `MonoAccount` through the owning
user's `tg_id` (the task arguments use `user__tg_id`), a `CategoryMSO`
references its `Category` by name, and currency columns store the
`Currency.code`.  Payload dicts become structures with the payload's keys
after `decamelize`; a missing or empty `id` in a `create_cards_jars` entry
is represented by the empty string (both are falsy in
`if card.get("id")`). -/

structure MonoAccountRec where
  user_tg_id : String
  mono_token : String
deriving DecidableEq, Repr

structure CurrencyRec where
  code : Int
  name : String
  flag : Option String
  symbol : Option String
deriving DecidableEq, Repr

structure CategoryRec where
  name : String
  symbol : Option String
  user_defined : Bool
deriving DecidableEq, Repr

structure CategoryMSORec where
  category_name : String
  mso : Int
deriving DecidableEq, Repr

structure MonoCardRow where
  monoaccount_tg : String
  id : String
  send_id : String
  currency_code : Int
  cashback_type : String
  balance : Int
  credit_limit : Int
  masked_pan : List String
  card_type : String
  iban : String
  is_active : Bool
deriving DecidableEq, Repr

structure MonoJarRow where
  monoaccount_tg : String
  id : String
  send_id : String
  title : String
  currency_code : Int
  balance : Int
  goal : Option Int
  is_budget : Bool
  is_active : Bool
  invested : Int
deriving DecidableEq, Repr

/-- A (decamelized) card payload entry of a client-info or webhook body. -/
structure CardPayload where
  id : String
  send_id : String
  currency_code : Int
  cashback_type : String
  balance : Int
  credit_limit : Int
  masked_pan : List String
  card_type : String
  iban : String
deriving DecidableEq, Repr

/-- A (decamelized) jar payload entry; `description` is popped before the
row fields are written. -/
structure JarPayload where
  id : String
  send_id : String
  title : String
  description : String
  currency_code : Int
  balance : Int
  goal : Option Int
deriving DecidableEq, Repr

/-- A (decamelized) statement-item dict passed to
`MonoTransaction.create_transaction_from_webhook`; `mcc` is `none` when the
key is missing (the `KeyError` fallback). -/
structure TxPayload where
  id : String
  time : Int
  description : Option String
  mcc : Option Int
  original_mcc : Option Int
  amount : Int
  operation_amount : Option Int
  currency_code : Int
  commission_rate : Option Int
  balance : Int
  hold : Bool
  receipt_id : Option String
  cashback_amount : Int
  comment : Option String
deriving DecidableEq, Repr

/-- A statement-item dict passed to
`JarTransaction.create_jar_transaction_from_webhook` (`JarTransaction` has
no `receipt_id` column). -/
structure JarTxPayload where
  id : String
  time : Int
  description : Option String
  mcc : Option Int
  original_mcc : Option Int
  amount : Int
  operation_amount : Option Int
  currency_code : Int
  commission_rate : Option Int
  balance : Int
  hold : Bool
  cashback_amount : Int
  comment : Option String
deriving DecidableEq, Repr

/-- The stored tables read and written by the ingestion operations. -/
structure MonoDB where
  monoAccounts : List MonoAccountRec
  currencies : List CurrencyRec
  categories : List CategoryRec
  categoryMsos : List CategoryMSORec
  monoCards : List MonoCardRow
  monoJars : List MonoJarRow
  monoTransactions : List MonoTxRow
  jarTransactions : List JarTxRow
deriving DecidableEq, Repr

/-- Embedding of `Currency.create_unknown_currency` (`models.py`). -/
def create_unknown_currency (currency_code : Int) : CurrencyRec :=
  { code := currency_code, name := "XXX", flag := none, symbol := none }

/-- Embedding of the repeated `try Currency.objects.get(code=...) except
DoesNotExist: Currency.create_unknown_currency(...)` block. -/
def getOrCreateCurrency (code : Int) (currencies : List CurrencyRec) :
    CurrencyRec × List CurrencyRec :=
  match currencies.find? fun c => c.code == code with
  | some c => (c, currencies)
  | none =>
    let nc := create_unknown_currency code
    (nc, currencies ++ [nc])

/-- Embedding of the repeated `try CategoryMSO.objects.get(mso=...) except
ObjectDoesNotExist: Category.objects.get_or_create(name="Інше");
CategoryMSO.objects.create(...)` block. -/
def getOrCreateMso (mso : Int) (categories : List CategoryRec)
    (msos : List CategoryMSORec) :
    CategoryMSORec × List CategoryRec × List CategoryMSORec :=
  match msos.find? fun r => r.mso == mso with
  | some r => (r, categories, msos)
  | none =>
    let categories2 := if categories.any fun c => c.name == "Інше" then categories
      else categories ++ [{ name := "Інше", symbol := none, user_defined := false }]
    let nr : CategoryMSORec := { category_name := "Інше", mso := mso }
    (nr, categories2, msos ++ [nr])

/-- The `setattr` loop of `create_card_from_webhook` over the decamelized
payload (with `currency_code` popped), followed by `is_active = True`. -/
def apply_card_payload (c : MonoCardRow) (p : CardPayload) : MonoCardRow :=
  { c with
    id := p.id
    send_id := p.send_id
    cashback_type := p.cashback_type
    balance := p.balance
    credit_limit := p.credit_limit
    masked_pan := p.masked_pan
    card_type := p.card_type
    iban := p.iban
    is_active := true }

/-- The row written by the `get_or_create` branch of
`create_card_from_webhook`. -/
def new_card_row (tg : String) (currency : CurrencyRec) (p : CardPayload) : MonoCardRow :=
  { monoaccount_tg := tg
    id := p.id
    send_id := p.send_id
    currency_code := currency.code
    cashback_type := p.cashback_type
    balance := p.balance
    credit_limit := p.credit_limit
    masked_pan := p.masked_pan
    card_type := p.card_type
    iban := p.iban
    is_active := true }

/-- Embedding of `MonoCard.create_card_from_webhook` (`models.py`); `none`
is the `MonoAccount.DoesNotExist` exception (the task would retry). -/
def create_card_from_webhook (tg_id : String) (card_data : CardPayload)
    (db : MonoDB) : Option MonoDB :=
  match db.monoAccounts.find? fun a => a.user_tg_id == tg_id with
  | none => none
  | some acct =>
    let cur := getOrCreateCurrency card_data.currency_code db.currencies
    let db2 := { db with currencies := cur.2 }
    match db2.monoCards.find? fun c => c.id == card_data.id with
    | some _ =>
      some { db2 with monoCards := db2.monoCards.map fun c =>
        if c.id == card_data.id then apply_card_payload c card_data else c }
    | none =>
      some { db2 with monoCards :=
        db2.monoCards ++ [new_card_row acct.user_tg_id cur.1 card_data] }

/-- The `setattr` loop of `create_jar_from_webhook` over the decamelized
payload (with `description` and `currency_code` popped), followed by
`is_active = True`. -/
def apply_jar_payload (j : MonoJarRow) (p : JarPayload) : MonoJarRow :=
  { j with
    id := p.id
    send_id := p.send_id
    title := p.title
    balance := p.balance
    goal := p.goal
    is_active := true }

/-- The row written by the `get_or_create` branch of
`create_jar_from_webhook`; `is_budget` and `invested` keep their model
defaults. -/
def new_jar_row (tg : String) (currency : CurrencyRec) (p : JarPayload) : MonoJarRow :=
  { monoaccount_tg := tg
    id := p.id
    send_id := p.send_id
    title := p.title
    currency_code := currency.code
    balance := p.balance
    goal := p.goal
    is_budget := false
    is_active := true
    invested := 0 }

/-- Embedding of `MonoJar.create_jar_from_webhook` (`models.py`). -/
def create_jar_from_webhook (tg_id : String) (jar_data : JarPayload)
    (db : MonoDB) : Option MonoDB :=
  match db.monoAccounts.find? fun a => a.user_tg_id == tg_id with
  | none => none
  | some acct =>
    let cur := getOrCreateCurrency jar_data.currency_code db.currencies
    let db2 := { db with currencies := cur.2 }
    match db2.monoJars.find? fun j => j.id == jar_data.id with
    | some _ =>
      some { db2 with monoJars := db2.monoJars.map fun j =>
        if j.id == jar_data.id then apply_jar_payload j jar_data else j }
    | none =>
      some { db2 with monoJars :=
        db2.monoJars ++ [new_jar_row acct.user_tg_id cur.1 jar_data] }

/-- Embedding of the synchronous body of `MonoAccount.create_cards_jars`
(`models.py`): extract the truthy payload ids and mark this account's other
cards and jars inactive.  The per-entry upsert tasks are dispatched with
`apply_async` and are not part of the synchronous database effect. -/
def create_cards_jars (self_tg : String) (cards : List CardPayload)
    (jars : List JarPayload) (db : MonoDB) : MonoDB :=
  let active_card_ids := (cards.map fun c => c.id).filter fun i => i ≠ ""
  let active_jar_ids := (jars.map fun j => j.id).filter fun i => i ≠ ""
  { db with
    monoCards := db.monoCards.map fun c =>
      if c.monoaccount_tg == self_tg && !(active_card_ids.contains c.id) then
        { c with is_active := false }
      else c,
    monoJars := db.monoJars.map fun j =>
      if j.monoaccount_tg == self_tg && !(active_jar_ids.contains j.id) then
        { j with is_active := false }
      else j }

/-- Embedding of `MonoTransaction.create_transaction_from_webhook`
(`models.py`).  `get_or_create` with every column as a lookup argument
reuses only an identical row; creating a second row with an existing `id`
raises `IntegrityError`, which the surrounding `try` swallows, leaving the
tables unchanged. -/
def create_transaction_from_webhook (card_id : String) (td : TxPayload)
    (db : MonoDB) : Option MonoDB :=
  match db.monoCards.find? fun c => c.id == card_id with
  | none => none
  | some _ =>
    let mso := match td.mcc with
      | some m => m
      | none => (db.categoryMsos.length : Int)
    let mres := getOrCreateMso mso db.categories db.categoryMsos
    let db2 := { db with categories := mres.2.1, categoryMsos := mres.2.2 }
    let cres := getOrCreateCurrency td.currency_code db2.currencies
    let db3 := { db2 with currencies := cres.2 }
    let candidate : MonoTxRow :=
      { id := td.id, time := td.time, description := td.description,
        mso := mres.1.mso, original_mcc := td.original_mcc, amount := td.amount,
        operation_amount := td.operation_amount, currency := some cres.1.code,
        commission_rate := td.commission_rate, balance := td.balance,
        hold := td.hold, receipt_id := td.receipt_id, account := card_id,
        cashback_amount := td.cashback_amount, comment := td.comment }
    if candidate ∈ db3.monoTransactions then some db3
    else if db3.monoTransactions.any fun r => r.id == td.id then some db3
    else some { db3 with monoTransactions := db3.monoTransactions ++ [candidate] }

/-- Embedding of `JarTransaction.create_jar_transaction_from_webhook`
(`models.py`).  There is no `try` around the `get_or_create`, so an
`IntegrityError` on a duplicated `id` propagates to the task runner, but the
stored tables evolve as here: the failed insert writes nothing and the
currency/category rows created before it persist (each `save` autocommits). -/
def create_jar_transaction_from_webhook (card_id : String) (td : JarTxPayload)
    (db : MonoDB) : Option MonoDB :=
  match db.monoJars.find? fun j => j.id == card_id with
  | none => none
  | some _ =>
    let mso := match td.mcc with
      | some m => m
      | none => (db.categoryMsos.length : Int)
    let mres := getOrCreateMso mso db.categories db.categoryMsos
    let db2 := { db with categories := mres.2.1, categoryMsos := mres.2.2 }
    let cres := getOrCreateCurrency td.currency_code db2.currencies
    let db3 := { db2 with currencies := cres.2 }
    let candidate : JarTxRow :=
      { account := card_id, id := td.id, time := td.time,
        description := td.description, mso := mres.1.mso,
        original_mcc := td.original_mcc, amount := td.amount,
        operation_amount := td.operation_amount, currency := some cres.1.code,
        commission_rate := td.commission_rate, cashback_amount := td.cashback_amount,
        balance := td.balance, hold := td.hold, comment := td.comment }
    if candidate ∈ db3.jarTransactions then some db3
    else if db3.jarTransactions.any fun r => r.id == td.id then some db3
    else some { db3 with jarTransactions := db3.jarTransactions ++ [candidate] }

theorem filter_map_eq {α : Type} (f : α → α) (p : α → Bool) (l : List α)
    (hfix : ∀ a, p a = true → f a = a) (hpres : ∀ a, p (f a) = p a) :
    (l.map f).filter p = l.filter p := by
  induction l with
  | nil => rfl
  | cons a as ih =>
    simp only [List.map_cons, List.filter_cons]
    cases hpa : p a with
    | true => simp [hpres a, hpa, ih, hfix a hpa]
    | false => simp [hpres a, hpa, ih]

/- ### C5: stale cards and jars are marked inactive -/

/-- C5.  After `MonoAccount.create_cards_jars` runs with a payload, every
previously stored `MonoCard` of that account whose `id` does not occur among
the payload's `accounts` entries has `is_active = False`, likewise for
`MonoJar` rows and the `jars` entries; cards and jars of other accounts are
unchanged. -/
theorem create_cards_jars_marks_stale (self_tg : String) (cards : List CardPayload)
    (jars : List JarPayload) (db : MonoDB) :
    (∀ c ∈ db.monoCards, c.monoaccount_tg = self_tg → c.id ∉ cards.map (fun p => p.id) →
      { c with is_active := false } ∈ (create_cards_jars self_tg cards jars db).monoCards) ∧
    (∀ j ∈ db.monoJars, j.monoaccount_tg = self_tg → j.id ∉ jars.map (fun p => p.id) →
      { j with is_active := false } ∈ (create_cards_jars self_tg cards jars db).monoJars) ∧
    ((create_cards_jars self_tg cards jars db).monoCards.filter
        (fun c => !(c.monoaccount_tg == self_tg)) =
      db.monoCards.filter (fun c => !(c.monoaccount_tg == self_tg))) ∧
    ((create_cards_jars self_tg cards jars db).monoJars.filter
        (fun j => !(j.monoaccount_tg == self_tg)) =
      db.monoJars.filter (fun j => !(j.monoaccount_tg == self_tg))) := by
  refine ⟨?_, ?_, ?_, ?_⟩
  · intro c hc htg hid
    have hcond : (c.monoaccount_tg == self_tg &&
        !(((cards.map fun c => c.id).filter fun i => i ≠ "").contains c.id)) = true := by
      have h1 : (c.monoaccount_tg == self_tg) = true := by
        simp [htg]
      have h2 : (((cards.map fun c => c.id).filter fun i => i ≠ "").contains c.id) = false := by
        rw [← Bool.not_eq_true]
        intro hcontains
        have hmem : c.id ∈ (cards.map fun c => c.id).filter fun i => i ≠ "" := by
          simpa using hcontains
        exact hid (List.mem_filter.mp hmem).1
      rw [h1, h2]
      rfl
    refine List.mem_map.mpr ⟨c, hc, ?_⟩
    simp only [if_pos hcond]
  · intro j hj htg hid
    have hcond : (j.monoaccount_tg == self_tg &&
        !(((jars.map fun j => j.id).filter fun i => i ≠ "").contains j.id)) = true := by
      have h1 : (j.monoaccount_tg == self_tg) = true := by
        simp [htg]
      have h2 : (((jars.map fun j => j.id).filter fun i => i ≠ "").contains j.id) = false := by
        rw [← Bool.not_eq_true]
        intro hcontains
        have hmem : j.id ∈ (jars.map fun j => j.id).filter fun i => i ≠ "" := by
          simpa using hcontains
        exact hid (List.mem_filter.mp hmem).1
      rw [h1, h2]
      rfl
    refine List.mem_map.mpr ⟨j, hj, ?_⟩
    simp only [if_pos hcond]
  · apply filter_map_eq
    · intro a ha
      have hne : (a.monoaccount_tg == self_tg) = false := by
        simpa using ha
      rw [if_neg]
      rw [hne]
      simp
    · intro a
      by_cases hcond : (a.monoaccount_tg == self_tg &&
          !(((cards.map fun c => c.id).filter fun i => i ≠ "").contains a.id)) = true
      · rw [if_pos hcond]
      · rw [if_neg hcond]
  · apply filter_map_eq
    · intro a ha
      have hne : (a.monoaccount_tg == self_tg) = false := by
        simpa using ha
      rw [if_neg]
      rw [hne]
      simp
    · intro a
      by_cases hcond : (a.monoaccount_tg == self_tg &&
          !(((jars.map fun j => j.id).filter fun i => i ≠ "").contains a.id)) = true
      · rw [if_pos hcond]
      · rw [if_neg hcond]

/-- Concrete stored card used by the ingestion witnesses. -/
def witnessCardRow : MonoCardRow :=
  { monoaccount_tg := "u1", id := "old_card", send_id := "s1", currency_code := 980,
    cashback_type := "UAH", balance := 100, credit_limit := 0, masked_pan := [],
    card_type := "black", iban := "UA00", is_active := true }

/-- Concrete database used by the ingestion witnesses. -/
def witnessDB : MonoDB :=
  { monoAccounts := [{ user_tg_id := "u1", mono_token := "tok" }]
    currencies := [{ code := 980, name := "UAH", flag := none, symbol := none }]
    categories := []
    categoryMsos := []
    monoCards := [witnessCardRow]
    monoJars := []
    monoTransactions := []
    jarTransactions := [] }

/-- Concrete card payload used by the ingestion witnesses (a different id
than the stored card). -/
def witnessCardPayload : CardPayload :=
  { id := "new_card", send_id := "s2", currency_code := 980, cashback_type := "UAH",
    balance := 50, credit_limit := 0, masked_pan := [], card_type := "white",
    iban := "UA01" }

/-- Witness for C5: syncing an account whose payload lists only `new_card`
deactivates the stored `old_card`. -/
theorem create_cards_jars_marks_stale_witness :
    { witnessCardRow with is_active := false } ∈
      (create_cards_jars "u1" [witnessCardPayload] [] witnessDB).monoCards :=
  (create_cards_jars_marks_stale "u1" [witnessCardPayload] [] witnessDB).1
    witnessCardRow (by decide) rfl (by decide)

/- ### Behaviour of the get-or-create helpers -/

theorem getOrCreateCurrency_of_exists {code : Int} {currencies : List CurrencyRec}
    (h : ∃ c ∈ currencies, c.code = code) :
    (getOrCreateCurrency code currencies).2 = currencies ∧
    (getOrCreateCurrency code currencies).1 ∈ currencies := by
  obtain ⟨c, hc, hcode⟩ := h
  cases hfind : currencies.find? fun c => c.code == code with
  | none =>
    rw [List.find?_eq_none] at hfind
    exact absurd (by simpa using hcode) (hfind c hc)
  | some c2 =>
    unfold getOrCreateCurrency
    rw [hfind]
    exact ⟨rfl, List.mem_of_find?_eq_some hfind⟩

theorem getOrCreateCurrency_of_not_exists {code : Int} {currencies : List CurrencyRec}
    (h : ∀ c ∈ currencies, c.code ≠ code) :
    getOrCreateCurrency code currencies =
      (create_unknown_currency code, currencies ++ [create_unknown_currency code]) := by
  cases hfind : currencies.find? fun c => c.code == code with
  | none =>
    unfold getOrCreateCurrency
    rw [hfind]
  | some c2 =>
    have hp := List.find?_some hfind
    have hmem := List.mem_of_find?_eq_some hfind
    exact absurd (by simpa using hp) (h c2 hmem)

theorem getOrCreateCurrency_code (code : Int) (currencies : List CurrencyRec) :
    (getOrCreateCurrency code currencies).1.code = code := by
  cases hfind : currencies.find? fun c => c.code == code with
  | none =>
    unfold getOrCreateCurrency
    rw [hfind]
    rfl
  | some c2 =>
    unfold getOrCreateCurrency
    rw [hfind]
    have hp := List.find?_some hfind
    simpa using hp

theorem getOrCreateMso_of_exists (categories : List CategoryRec) {mso : Int}
    {msos : List CategoryMSORec} (h : ∃ r ∈ msos, r.mso = mso) :
    (getOrCreateMso mso categories msos).2.1 = categories ∧
    (getOrCreateMso mso categories msos).2.2 = msos ∧
    (getOrCreateMso mso categories msos).1 ∈ msos := by
  obtain ⟨r, hr, hmso⟩ := h
  cases hfind : msos.find? fun r => r.mso == mso with
  | none =>
    rw [List.find?_eq_none] at hfind
    exact absurd (by simpa using hmso) (hfind r hr)
  | some r2 =>
    unfold getOrCreateMso
    rw [hfind]
    exact ⟨rfl, rfl, List.mem_of_find?_eq_some hfind⟩

theorem getOrCreateMso_of_not_exists (categories : List CategoryRec) {mso : Int}
    {msos : List CategoryMSORec} (h : ∀ r ∈ msos, r.mso ≠ mso) :
    (getOrCreateMso mso categories msos).1 = { category_name := "Інше", mso := mso } ∧
    (getOrCreateMso mso categories msos).2.2 =
      msos ++ [{ category_name := "Інше", mso := mso }] ∧
    ((∃ c ∈ categories, c.name = "Інше") →
      (getOrCreateMso mso categories msos).2.1 = categories) ∧
    ((∀ c ∈ categories, c.name ≠ "Інше") →
      (getOrCreateMso mso categories msos).2.1 =
        categories ++ [{ name := "Інше", symbol := none, user_defined := false }]) := by
  cases hfind : msos.find? fun r => r.mso == mso with
  | some r2 =>
    have hp := List.find?_some hfind
    have hmem := List.mem_of_find?_eq_some hfind
    exact absurd (by simpa using hp) (h r2 hmem)
  | none =>
    unfold getOrCreateMso
    rw [hfind]
    refine ⟨rfl, rfl, ?_, ?_⟩
    · rintro ⟨c, hc, hname⟩
      have hany : (categories.any fun c => c.name == "Інше") = true :=
        List.any_eq_true.mpr ⟨c, hc, by simpa using hname⟩
      simp only [hany, if_pos, if_true]
    · intro hnone
      have hany : (categories.any fun c => c.name == "Інше") = false := by
        rw [← Bool.not_eq_true, List.any_eq_true]
        rintro ⟨c, hc, hname⟩
        exact hnone c hc (by simpa using hname)
      simp only [hany, Bool.false_eq_true, if_neg, if_false]

theorem getOrCreateMso_mso (mso : Int) (categories : List CategoryRec)
    (msos : List CategoryMSORec) :
    (getOrCreateMso mso categories msos).1.mso = mso := by
  cases hfind : msos.find? fun r => r.mso == mso with
  | none =>
    unfold getOrCreateMso
    rw [hfind]
  | some r2 =>
    unfold getOrCreateMso
    rw [hfind]
    have hp := List.find?_some hfind
    simpa using hp

/- ### C6: card and jar ingestion is an id-keyed upsert -/

/-- C6.  `create_card_from_webhook` (resp. `create_jar_from_webhook`) is an
upsert keyed on the payload id: an existing row with that id is updated from
the payload and re-activated without creating a second row, otherwise
exactly one new row with `is_active = True` is created; in both cases the
stored set of ids afterwards is the set before united with the payload id. -/
theorem card_jar_webhook_upsert (tg : String) (p : CardPayload) (q : JarPayload)
    (db db₁ db₂ : MonoDB)
    (hcard : create_card_from_webhook tg p db = some db₁)
    (hjar : create_jar_from_webhook tg q db = some db₂) :
    ((∃ c₀ ∈ db.monoCards, c₀.id = p.id) →
      db₁.monoCards.length = db.monoCards.length ∧
      (∀ c₀ ∈ db.monoCards, c₀.id = p.id →
        apply_card_payload c₀ p ∈ db₁.monoCards ∧
        (apply_card_payload c₀ p).is_active = true) ∧
      (∀ c ∈ db.monoCards, c.id ≠ p.id → c ∈ db₁.monoCards)) ∧
    ((∀ c ∈ db.monoCards, c.id ≠ p.id) →
      ∃ newc, db₁.monoCards = db.monoCards ++ [newc] ∧ newc.id = p.id ∧
        newc.is_active = true ∧ newc.monoaccount_tg = tg) ∧
    (∀ i, (∃ c ∈ db₁.monoCards, c.id = i) ↔ (∃ c ∈ db.monoCards, c.id = i) ∨ i = p.id) ∧
    ((∃ j₀ ∈ db.monoJars, j₀.id = q.id) →
      db₂.monoJars.length = db.monoJars.length ∧
      (∀ j₀ ∈ db.monoJars, j₀.id = q.id →
        apply_jar_payload j₀ q ∈ db₂.monoJars ∧
        (apply_jar_payload j₀ q).is_active = true) ∧
      (∀ j ∈ db.monoJars, j.id ≠ q.id → j ∈ db₂.monoJars)) ∧
    ((∀ j ∈ db.monoJars, j.id ≠ q.id) →
      ∃ newj, db₂.monoJars = db.monoJars ++ [newj] ∧ newj.id = q.id ∧
        newj.is_active = true ∧ newj.monoaccount_tg = tg) ∧
    (∀ i, (∃ j ∈ db₂.monoJars, j.id = i) ↔ (∃ j ∈ db.monoJars, j.id = i) ∨ i = q.id) := by
  unfold create_card_from_webhook at hcard
  unfold create_jar_from_webhook at hjar
  cases hacct : db.monoAccounts.find? fun a => a.user_tg_id == tg with
  | none =>
    rw [hacct] at hcard
    exact Option.noConfusion hcard
  | some acct =>
    have hacct_tg : acct.user_tg_id = tg := by
      have := List.find?_some hacct
      simpa using this
    simp only [hacct] at hcard hjar
    refine ⟨?_, ?_, ?_, ?_, ?_, ?_⟩
    -- cards: update branch
    · rintro ⟨c₀, hc₀, hc₀id⟩
      cases hfindc : db.monoCards.find? fun c => c.id == p.id with
      | none =>
        rw [List.find?_eq_none] at hfindc
        exact absurd (by simpa using hc₀id) (hfindc c₀ hc₀)
      | some c2 =>
        simp only [hfindc] at hcard
        obtain rfl := Option.some.inj hcard
        refine ⟨by simp, ?_, ?_⟩
        · intro c₀ hc₀ hc₀id
          refine ⟨List.mem_map.mpr ⟨c₀, hc₀, ?_⟩, rfl⟩
          have : (c₀.id == p.id) = true := by simpa using hc₀id
          simp only [if_pos this]
        · intro c hc hcid
          refine List.mem_map.mpr ⟨c, hc, ?_⟩
          have : (c.id == p.id) = false := by simpa using hcid
          simp only [this, Bool.false_eq_true, if_neg, if_false]
    -- cards: create branch
    · intro hnone
      cases hfindc : db.monoCards.find? fun c => c.id == p.id with
      | some c2 =>
        have hp := List.find?_some hfindc
        have hmem := List.mem_of_find?_eq_some hfindc
        exact absurd (by simpa using hp) (hnone c2 hmem)
      | none =>
        simp only [hfindc] at hcard
        obtain rfl := Option.some.inj hcard
        exact ⟨new_card_row acct.user_tg_id
          (getOrCreateCurrency p.currency_code db.currencies).1 p,
          rfl, rfl, rfl, hacct_tg⟩
    -- cards: ids
    · intro i
      cases hfindc : db.monoCards.find? fun c => c.id == p.id with
      | some c2 =>
        simp only [hfindc] at hcard
        obtain rfl := Option.some.inj hcard
        have hc2 : (c2.id == p.id) = true := by
          have h := List.find?_some hfindc
          exact h
        have hc2mem := List.mem_of_find?_eq_some hfindc
        constructor
        · rintro ⟨c', hc', hcid⟩
          obtain ⟨c, hc, hfc⟩ := List.mem_map.mp hc'
          by_cases hcase : (c.id == p.id) = true
          · right
            rw [← hcid, ← hfc]
            simp only [if_pos hcase]
            rfl
          · left
            refine ⟨c, hc, ?_⟩
            rw [← hfc] at hcid
            simp only [hcase, Bool.false_eq_true, if_neg, if_false] at hcid
            exact hcid
        · rintro (⟨c, hc, hcid⟩ | rfl)
          · by_cases hcase : (c.id == p.id) = true
            · refine ⟨apply_card_payload c p, List.mem_map.mpr ⟨c, hc, by
                simp only [if_pos hcase]⟩, ?_⟩
              rw [← hcid]
              have : c.id = p.id := by simpa using hcase
              rw [this]
              rfl
            · exact ⟨c, List.mem_map.mpr ⟨c, hc, by
                simp only [hcase, Bool.false_eq_true, if_neg, if_false]⟩, hcid⟩
          · exact ⟨apply_card_payload c2 p, List.mem_map.mpr ⟨c2, hc2mem, by
              simp only [if_pos hc2]⟩, rfl⟩
      | none =>
        simp only [hfindc] at hcard
        obtain rfl := Option.some.inj hcard
        constructor
        · rintro ⟨c', hc', hcid⟩
          rcases List.mem_append.mp hc' with hc' | hc'
          · exact Or.inl ⟨c', hc', hcid⟩
          · right
            rw [List.mem_singleton.mp hc'] at hcid
            exact hcid.symm
        · rintro (⟨c, hc, hcid⟩ | rfl)
          · exact ⟨c, List.mem_append.mpr (Or.inl hc), hcid⟩
          · exact ⟨new_card_row acct.user_tg_id
              (getOrCreateCurrency p.currency_code db.currencies).1 p,
              List.mem_append.mpr (Or.inr (List.mem_singleton.mpr rfl)), rfl⟩
    -- jars: update branch
    · rintro ⟨j₀, hj₀, hj₀id⟩
      cases hfindj : db.monoJars.find? fun j => j.id == q.id with
      | none =>
        rw [List.find?_eq_none] at hfindj
        exact absurd (by simpa using hj₀id) (hfindj j₀ hj₀)
      | some j2 =>
        simp only [hfindj] at hjar
        obtain rfl := Option.some.inj hjar
        refine ⟨by simp, ?_, ?_⟩
        · intro j₀ hj₀ hj₀id
          refine ⟨List.mem_map.mpr ⟨j₀, hj₀, ?_⟩, rfl⟩
          have : (j₀.id == q.id) = true := by simpa using hj₀id
          simp only [if_pos this]
        · intro j hj hjid
          refine List.mem_map.mpr ⟨j, hj, ?_⟩
          have : (j.id == q.id) = false := by simpa using hjid
          simp only [this, Bool.false_eq_true, if_neg, if_false]
    -- jars: create branch
    · intro hnone
      cases hfindj : db.monoJars.find? fun j => j.id == q.id with
      | some j2 =>
        have hp := List.find?_some hfindj
        have hmem := List.mem_of_find?_eq_some hfindj
        exact absurd (by simpa using hp) (hnone j2 hmem)
      | none =>
        simp only [hfindj] at hjar
        obtain rfl := Option.some.inj hjar
        exact ⟨new_jar_row acct.user_tg_id
          (getOrCreateCurrency q.currency_code db.currencies).1 q,
          rfl, rfl, rfl, hacct_tg⟩
    -- jars: ids
    · intro i
      cases hfindj : db.monoJars.find? fun j => j.id == q.id with
      | some j2 =>
        simp only [hfindj] at hjar
        obtain rfl := Option.some.inj hjar
        have hj2 : (j2.id == q.id) = true := by
          have h := List.find?_some hfindj
          exact h
        have hj2mem := List.mem_of_find?_eq_some hfindj
        constructor
        · rintro ⟨j', hj', hjid⟩
          obtain ⟨j, hj, hfj⟩ := List.mem_map.mp hj'
          by_cases hcase : (j.id == q.id) = true
          · right
            rw [← hjid, ← hfj]
            simp only [if_pos hcase]
            rfl
          · left
            refine ⟨j, hj, ?_⟩
            rw [← hfj] at hjid
            simp only [hcase, Bool.false_eq_true, if_neg, if_false] at hjid
            exact hjid
        · rintro (⟨j, hj, hjid⟩ | rfl)
          · by_cases hcase : (j.id == q.id) = true
            · refine ⟨apply_jar_payload j q, List.mem_map.mpr ⟨j, hj, by
                simp only [if_pos hcase]⟩, ?_⟩
              rw [← hjid]
              have : j.id = q.id := by simpa using hcase
              rw [this]
              rfl
            · exact ⟨j, List.mem_map.mpr ⟨j, hj, by
                simp only [hcase, Bool.false_eq_true, if_neg, if_false]⟩, hjid⟩
          · exact ⟨apply_jar_payload j2 q, List.mem_map.mpr ⟨j2, hj2mem, by
              simp only [if_pos hj2]⟩, rfl⟩
      | none =>
        simp only [hfindj] at hjar
        obtain rfl := Option.some.inj hjar
        constructor
        · rintro ⟨j', hj', hjid⟩
          rcases List.mem_append.mp hj' with hj' | hj'
          · exact Or.inl ⟨j', hj', hjid⟩
          · right
            rw [List.mem_singleton.mp hj'] at hjid
            exact hjid.symm
        · rintro (⟨j, hj, hjid⟩ | rfl)
          · exact ⟨j, List.mem_append.mpr (Or.inl hj), hjid⟩
          · exact ⟨new_jar_row acct.user_tg_id
              (getOrCreateCurrency q.currency_code db.currencies).1 q,
              List.mem_append.mpr (Or.inr (List.mem_singleton.mpr rfl)), rfl⟩

/-- Concrete jar payload used by the ingestion witnesses. -/
def witnessJarPayload : JarPayload :=
  { id := "new_jar", send_id := "js", title := "Vacation", description := "d",
    currency_code := 980, balance := 10, goal := none }

/-- Database state after ingesting `witnessCardPayload` into `witnessDB`. -/
def witnessDBAfterCard : MonoDB :=
  { witnessDB with monoCards := witnessDB.monoCards ++
      [new_card_row "u1" { code := 980, name := "UAH", flag := none, symbol := none }
        witnessCardPayload] }

/-- Database state after ingesting `witnessJarPayload` into `witnessDB`. -/
def witnessDBAfterJar : MonoDB :=
  { witnessDB with monoJars := witnessDB.monoJars ++
      [new_jar_row "u1" { code := 980, name := "UAH", flag := none, symbol := none }
        witnessJarPayload] }

/-- Witness for C6: ingesting a fresh card and a fresh jar payload adds their
ids to the stored sets. -/
theorem card_jar_webhook_upsert_witness :
    (∃ c ∈ witnessDBAfterCard.monoCards, c.id = "new_card") ∧
    (∃ j ∈ witnessDBAfterJar.monoJars, j.id = "new_jar") := by
  have h := card_jar_webhook_upsert "u1" witnessCardPayload witnessJarPayload witnessDB
    witnessDBAfterCard witnessDBAfterJar (by decide) (by decide)
  exact ⟨(h.2.2.1 "new_card").mpr (Or.inr rfl),
    (h.2.2.2.2.2 "new_jar").mpr (Or.inr rfl)⟩

/- ### C7: auto-created currencies and categories -/

/-- Card payload targeting the already-stored `old_card` with an unknown
currency code. -/
def c7CardPayload : CardPayload :=
  { id := "old_card", send_id := "s3", currency_code := 840, cashback_type := "USD",
    balance := 7, credit_limit := 0, masked_pan := [], card_type := "black",
    iban := "UA02" }

/-- Counterexample to C7 as stated: ingesting a payload for an existing card
with the unknown currency code 840 creates the `XXX` currency row but does
not attach it — the update branch of `create_card_from_webhook` pops
`currency_code` before the `setattr` loop, so the stored card keeps currency
980. -/
theorem currency_autocreate_not_attached_counterexample :
    create_card_from_webhook "u1" c7CardPayload witnessDB =
      some { witnessDB with
        currencies := [{ code := 980, name := "UAH", flag := none, symbol := none },
          { code := 840, name := "XXX", flag := none, symbol := none }]
        monoCards := [apply_card_payload witnessCardRow c7CardPayload] } ∧
    create_unknown_currency 840 ∈
      (match create_card_from_webhook "u1" c7CardPayload witnessDB with
       | some res => res.currencies
       | none => []) ∧
    (∀ c ∈ (match create_card_from_webhook "u1" c7CardPayload witnessDB with
       | some res => res.monoCards
       | none => []), c.currency_code = 980 ∧ c.currency_code ≠ 840) := by
  refine ⟨by decide, by decide, ?_⟩
  intro c hc
  have hcs : (match create_card_from_webhook "u1" c7CardPayload witnessDB with
      | some res => res.monoCards
      | none => []) = [apply_card_payload witnessCardRow c7CardPayload] := by decide
  rw [hcs] at hc
  rw [List.mem_singleton.mp hc]
  exact ⟨rfl, by decide⟩

/-- C7 (amended).  During ingestion of a card, jar, or transaction payload,
an unknown `currency_code` creates a `Currency` row with that code and name
`"XXX"`, and an unknown transaction `mcc` creates a `CategoryMSO` under the
category named `"Інше"` (creating that category only when absent); existing
rows are reused with no new row.  The created or reused currency and
category are attached to newly created card, jar, and transaction rows;
the update branch for an already-stored card or jar leaves that row's
stored currency unchanged. -/
theorem ingestion_currency_category_autocreate
    (tg cid jid : String) (p : CardPayload) (q : JarPayload) (td : TxPayload)
    (jtd : JarTxPayload) (db dbc dbj dbt dbjt : MonoDB) (m jm : Int)
    (hcard : create_card_from_webhook tg p db = some dbc)
    (hjar : create_jar_from_webhook tg q db = some dbj)
    (htx : create_transaction_from_webhook cid td db = some dbt)
    (hjtx : create_jar_transaction_from_webhook jid jtd db = some dbjt)
    (hmcc : td.mcc = some m) (hjmcc : jtd.mcc = some jm) :
    ((∃ c ∈ db.currencies, c.code = p.currency_code) → dbc.currencies = db.currencies) ∧
    ((∀ c ∈ db.currencies, c.code ≠ p.currency_code) →
      dbc.currencies = db.currencies ++ [create_unknown_currency p.currency_code]) ∧
    ((∀ c ∈ db.monoCards, c.id ≠ p.id) →
      ∃ c ∈ dbc.monoCards, c.id = p.id ∧ c.currency_code = p.currency_code) ∧
    ((∃ c₀ ∈ db.monoCards, c₀.id = p.id) →
      dbc.monoCards.map (fun c => c.currency_code) =
        db.monoCards.map (fun c => c.currency_code)) ∧
    ((∃ c ∈ db.currencies, c.code = q.currency_code) → dbj.currencies = db.currencies) ∧
    ((∀ c ∈ db.currencies, c.code ≠ q.currency_code) →
      dbj.currencies = db.currencies ++ [create_unknown_currency q.currency_code]) ∧
    ((∀ j ∈ db.monoJars, j.id ≠ q.id) →
      ∃ j ∈ dbj.monoJars, j.id = q.id ∧ j.currency_code = q.currency_code) ∧
    ((∃ j₀ ∈ db.monoJars, j₀.id = q.id) →
      dbj.monoJars.map (fun j => j.currency_code) =
        db.monoJars.map (fun j => j.currency_code)) ∧
    ((∃ c ∈ db.currencies, c.code = td.currency_code) → dbt.currencies = db.currencies) ∧
    ((∀ c ∈ db.currencies, c.code ≠ td.currency_code) →
      dbt.currencies = db.currencies ++ [create_unknown_currency td.currency_code]) ∧
    ((∃ r ∈ db.categoryMsos, r.mso = m) →
      dbt.categoryMsos = db.categoryMsos ∧ dbt.categories = db.categories) ∧
    ((∀ r ∈ db.categoryMsos, r.mso ≠ m) →
      dbt.categoryMsos = db.categoryMsos ++ [{ category_name := "Інше", mso := m }] ∧
      ((∃ c ∈ db.categories, c.name = "Інше") → dbt.categories = db.categories) ∧
      ((∀ c ∈ db.categories, c.name ≠ "Інше") →
        dbt.categories = db.categories ++
          [{ name := "Інше", symbol := none, user_defined := false }])) ∧
    ((∀ r ∈ db.monoTransactions, r.id ≠ td.id) →
      ∃ r ∈ dbt.monoTransactions, r.id = td.id ∧
        r.currency = some td.currency_code ∧ r.mso = m) ∧
    ((∃ c ∈ db.currencies, c.code = jtd.currency_code) → dbjt.currencies = db.currencies) ∧
    ((∀ c ∈ db.currencies, c.code ≠ jtd.currency_code) →
      dbjt.currencies = db.currencies ++ [create_unknown_currency jtd.currency_code]) ∧
    ((∃ r ∈ db.categoryMsos, r.mso = jm) →
      dbjt.categoryMsos = db.categoryMsos ∧ dbjt.categories = db.categories) ∧
    ((∀ r ∈ db.categoryMsos, r.mso ≠ jm) →
      dbjt.categoryMsos = db.categoryMsos ++ [{ category_name := "Інше", mso := jm }] ∧
      ((∃ c ∈ db.categories, c.name = "Інше") → dbjt.categories = db.categories) ∧
      ((∀ c ∈ db.categories, c.name ≠ "Інше") →
        dbjt.categories = db.categories ++
          [{ name := "Інше", symbol := none, user_defined := false }])) ∧
    ((∀ r ∈ db.jarTransactions, r.id ≠ jtd.id) →
      ∃ r ∈ dbjt.jarTransactions, r.id = jtd.id ∧
        r.currency = some jtd.currency_code ∧ r.mso = jm) := by
  unfold create_card_from_webhook at hcard
  unfold create_jar_from_webhook at hjar
  unfold create_transaction_from_webhook at htx
  unfold create_jar_transaction_from_webhook at hjtx
  cases hacct : db.monoAccounts.find? fun a => a.user_tg_id == tg with
  | none =>
    rw [hacct] at hcard
    exact Option.noConfusion hcard
  | some acct =>
  simp only [hacct] at hcard hjar
  cases hfcard : db.monoCards.find? fun c => c.id == cid with
  | none =>
    rw [hfcard] at htx
    exact Option.noConfusion htx
  | some cardrow =>
  simp only [hfcard, hmcc] at htx
  cases hfjar : db.monoJars.find? fun j => j.id == jid with
  | none =>
    rw [hfjar] at hjtx
    exact Option.noConfusion hjtx
  | some jarrow =>
  simp only [hfjar, hjmcc] at hjtx
  -- the currency table of the card/jar results is the get-or-create result
  have hcurc : dbc.currencies = (getOrCreateCurrency p.currency_code db.currencies).2 := by
    cases hfindc : db.monoCards.find? fun c => c.id == p.id with
    | some c2 =>
      simp only [hfindc] at hcard
      obtain rfl := Option.some.inj hcard
      rfl
    | none =>
      simp only [hfindc] at hcard
      obtain rfl := Option.some.inj hcard
      rfl
  have hcurj : dbj.currencies = (getOrCreateCurrency q.currency_code db.currencies).2 := by
    cases hfindj : db.monoJars.find? fun j => j.id == q.id with
    | some j2 =>
      simp only [hfindj] at hjar
      obtain rfl := Option.some.inj hjar
      rfl
    | none =>
      simp only [hfindj] at hjar
      obtain rfl := Option.some.inj hjar
      rfl
  -- the transaction results keep the tables of the shared prefix
  have htx_tables : dbt.currencies =
      (getOrCreateCurrency td.currency_code db.currencies).2 ∧
      dbt.categories = (getOrCreateMso m db.categories db.categoryMsos).2.1 ∧
      dbt.categoryMsos = (getOrCreateMso m db.categories db.categoryMsos).2.2 := by
    split at htx
    · obtain rfl := Option.some.inj htx
      exact ⟨rfl, rfl, rfl⟩
    · split at htx
      · obtain rfl := Option.some.inj htx
        exact ⟨rfl, rfl, rfl⟩
      · obtain rfl := Option.some.inj htx
        exact ⟨rfl, rfl, rfl⟩
  have hjtx_tables : dbjt.currencies =
      (getOrCreateCurrency jtd.currency_code db.currencies).2 ∧
      dbjt.categories = (getOrCreateMso jm db.categories db.categoryMsos).2.1 ∧
      dbjt.categoryMsos = (getOrCreateMso jm db.categories db.categoryMsos).2.2 := by
    split at hjtx
    · obtain rfl := Option.some.inj hjtx
      exact ⟨rfl, rfl, rfl⟩
    · split at hjtx
      · obtain rfl := Option.some.inj hjtx
        exact ⟨rfl, rfl, rfl⟩
      · obtain rfl := Option.some.inj hjtx
        exact ⟨rfl, rfl, rfl⟩
  refine ⟨?_, ?_, ?_, ?_, ?_, ?_, ?_, ?_, ?_, ?_, ?_, ?_, ?_, ?_, ?_, ?_, ?_, ?_⟩
  · intro h
    rw [hcurc, (getOrCreateCurrency_of_exists h).1]
  · intro h
    rw [hcurc, getOrCreateCurrency_of_not_exists h]
  · intro hnone
    cases hfindc : db.monoCards.find? fun c => c.id == p.id with
    | some c2 =>
      have hp2 := List.find?_some hfindc
      have hmem := List.mem_of_find?_eq_some hfindc
      exact absurd (by simpa using hp2) (hnone c2 hmem)
    | none =>
      simp only [hfindc] at hcard
      obtain rfl := Option.some.inj hcard
      refine ⟨new_card_row acct.user_tg_id
        (getOrCreateCurrency p.currency_code db.currencies).1 p,
        List.mem_append.mpr (Or.inr (List.mem_singleton.mpr rfl)), rfl,
        getOrCreateCurrency_code p.currency_code db.currencies⟩
  · rintro ⟨c₀, hc₀, hc₀id⟩
    cases hfindc : db.monoCards.find? fun c => c.id == p.id with
    | none =>
      rw [List.find?_eq_none] at hfindc
      exact absurd (by simpa using hc₀id) (hfindc c₀ hc₀)
    | some c2 =>
      simp only [hfindc] at hcard
      obtain rfl := Option.some.inj hcard
      rw [List.map_map]
      apply List.map_congr_left
      intro a ha
      by_cases hcase : (a.id == p.id) = true
      · simp only [Function.comp, if_pos hcase]
        rfl
      · simp only [Function.comp, hcase, Bool.false_eq_true, if_neg, if_false]
  · intro h
    rw [hcurj, (getOrCreateCurrency_of_exists h).1]
  · intro h
    rw [hcurj, getOrCreateCurrency_of_not_exists h]
  · intro hnone
    cases hfindj : db.monoJars.find? fun j => j.id == q.id with
    | some j2 =>
      have hp2 := List.find?_some hfindj
      have hmem := List.mem_of_find?_eq_some hfindj
      exact absurd (by simpa using hp2) (hnone j2 hmem)
    | none =>
      simp only [hfindj] at hjar
      obtain rfl := Option.some.inj hjar
      refine ⟨new_jar_row acct.user_tg_id
        (getOrCreateCurrency q.currency_code db.currencies).1 q,
        List.mem_append.mpr (Or.inr (List.mem_singleton.mpr rfl)), rfl,
        getOrCreateCurrency_code q.currency_code db.currencies⟩
  · rintro ⟨j₀, hj₀, hj₀id⟩
    cases hfindj : db.monoJars.find? fun j => j.id == q.id with
    | none =>
      rw [List.find?_eq_none] at hfindj
      exact absurd (by simpa using hj₀id) (hfindj j₀ hj₀)
    | some j2 =>
      simp only [hfindj] at hjar
      obtain rfl := Option.some.inj hjar
      rw [List.map_map]
      apply List.map_congr_left
      intro a ha
      by_cases hcase : (a.id == q.id) = true
      · simp only [Function.comp, if_pos hcase]
        rfl
      · simp only [Function.comp, hcase, Bool.false_eq_true, if_neg, if_false]
  · intro h
    rw [htx_tables.1, (getOrCreateCurrency_of_exists h).1]
  · intro h
    rw [htx_tables.1, getOrCreateCurrency_of_not_exists h]
  · intro h
    have hx := getOrCreateMso_of_exists db.categories h
    exact ⟨htx_tables.2.2.trans hx.2.1, htx_tables.2.1.trans hx.1⟩
  · intro h
    have hx := getOrCreateMso_of_not_exists db.categories h
    refine ⟨htx_tables.2.2.trans hx.2.1, ?_, ?_⟩
    · intro hc
      exact htx_tables.2.1.trans (hx.2.2.1 hc)
    · intro hc
      exact htx_tables.2.1.trans (hx.2.2.2 hc)
  · intro hfresh
    split at htx
    · rename_i hcand
      exact absurd rfl (hfresh _ hcand)
    · split at htx
      · rename_i hany
        exfalso
        obtain ⟨r, hr, hrid⟩ := List.any_eq_true.mp hany
        exact hfresh r hr (by simpa using hrid)
      · obtain rfl := Option.some.inj htx
        refine ⟨_, List.mem_append.mpr (Or.inr (List.mem_singleton.mpr rfl)),
          rfl, ?_, getOrCreateMso_mso m db.categories db.categoryMsos⟩
        rw [getOrCreateCurrency_code td.currency_code db.currencies]
  · intro h
    rw [hjtx_tables.1, (getOrCreateCurrency_of_exists h).1]
  · intro h
    rw [hjtx_tables.1, getOrCreateCurrency_of_not_exists h]
  · intro h
    have hx := getOrCreateMso_of_exists db.categories h
    exact ⟨hjtx_tables.2.2.trans hx.2.1, hjtx_tables.2.1.trans hx.1⟩
  · intro h
    have hx := getOrCreateMso_of_not_exists db.categories h
    refine ⟨hjtx_tables.2.2.trans hx.2.1, ?_, ?_⟩
    · intro hc
      exact hjtx_tables.2.1.trans (hx.2.2.1 hc)
    · intro hc
      exact hjtx_tables.2.1.trans (hx.2.2.2 hc)
  · intro hfresh
    split at hjtx
    · rename_i hcand
      exact absurd rfl (hfresh _ hcand)
    · split at hjtx
      · rename_i hany
        exfalso
        obtain ⟨r, hr, hrid⟩ := List.any_eq_true.mp hany
        exact hfresh r hr (by simpa using hrid)
      · obtain rfl := Option.some.inj hjtx
        refine ⟨_, List.mem_append.mpr (Or.inr (List.mem_singleton.mpr rfl)),
          rfl, ?_, getOrCreateMso_mso jm db.categories db.categoryMsos⟩
        rw [getOrCreateCurrency_code jtd.currency_code db.currencies]

/-- Concrete stored jar used by the C7 witness. -/
def c7JarRow : MonoJarRow :=
  { monoaccount_tg := "u1", id := "jar1", send_id := "j1", title := "T",
    currency_code := 980, balance := 0, goal := none, is_budget := false,
    is_active := true, invested := 0 }

/-- Database used by the C7 witness. -/
def c7DB : MonoDB := { witnessDB with monoJars := [c7JarRow] }

/-- Card transaction payload used by the C7 witness (known currency,
unknown mcc). -/
def c7TxPayload : TxPayload :=
  { id := "t1", time := 5, description := none, mcc := some 4121,
    original_mcc := none, amount := -100, operation_amount := none,
    currency_code := 980, commission_rate := none, balance := 900, hold := false,
    receipt_id := none, cashback_amount := 0, comment := none }

/-- Jar transaction payload used by the C7 witness (unknown currency and
unknown mcc). -/
def c7JarTxPayload : JarTxPayload :=
  { id := "jt1", time := 6, description := none, mcc := some 7399,
    original_mcc := none, amount := 200, operation_amount := none,
    currency_code := 978, commission_rate := none, balance := 200, hold := false,
    cashback_amount := 0, comment := none }

/-- Witness for the amended C7 on concrete ingestions: the stored currency
980 is reused for the card, and fresh transactions are stored with their
currency and mcc attached. -/
theorem ingestion_currency_category_autocreate_witness :
    ∃ dbc dbt dbjt,
      create_card_from_webhook "u1" witnessCardPayload c7DB = some dbc ∧
      create_transaction_from_webhook "old_card" c7TxPayload c7DB = some dbt ∧
      create_jar_transaction_from_webhook "jar1" c7JarTxPayload c7DB = some dbjt ∧
      dbc.currencies = c7DB.currencies ∧
      (∃ r ∈ dbt.monoTransactions, r.id = "t1" ∧ r.currency = some 980 ∧ r.mso = 4121) ∧
      (∃ r ∈ dbjt.jarTransactions, r.id = "jt1" ∧ r.currency = some 978 ∧ r.mso = 7399) := by
  cases hdc : create_card_from_webhook "u1" witnessCardPayload c7DB with
  | none => exact absurd hdc (by decide)
  | some dbc =>
  cases hdj : create_jar_from_webhook "u1" witnessJarPayload c7DB with
  | none => exact absurd hdj (by decide)
  | some dbj =>
  cases hdt : create_transaction_from_webhook "old_card" c7TxPayload c7DB with
  | none => exact absurd hdt (by decide)
  | some dbt =>
  cases hdjt : create_jar_transaction_from_webhook "jar1" c7JarTxPayload c7DB with
  | none => exact absurd hdjt (by decide)
  | some dbjt =>
  have h := ingestion_currency_category_autocreate "u1" "old_card" "jar1"
    witnessCardPayload witnessJarPayload c7TxPayload c7JarTxPayload c7DB dbc dbj dbt dbjt
    4121 7399 hdc hdj hdt hdjt rfl rfl
  refine ⟨dbc, dbt, dbjt, rfl, rfl, rfl, ?_, ?_, ?_⟩
  · have hx := h.1 ⟨{ code := 980, name := "UAH", flag := none, symbol := none },
      by decide, rfl⟩
    rw [hx]
  · exact h.2.2.2.2.2.2.2.2.2.2.2.2.1
      (by intro r hr; exact absurd hr (List.not_mem_nil r))
  · exact h.2.2.2.2.2.2.2.2.2.2.2.2.2.2.2.2.2
      (by intro r hr; exact absurd hr (List.not_mem_nil r))
